import Mathlib

/-!
Verification development for the tt-bbs server-side session/app runtime.

The definitions below are a shallow embedding of the TypeScript sources:

* `src/app/api/terminal/service.ts` (session service),
* `src/app/api/auth/login/route.ts` (login and logout handlers),
* `src/app/api/auth/register/route.ts`,
* `src/app/lib/userUtils.ts`,
* `src/app/api/terminal/init/route.ts`,
* `src/app/api/terminal/command/route.ts`,
* `src/app/api/terminal/apps/githubLoader.ts`,
* the app loader module (registry of installed apps).

Pure computations become Lean functions; database calls become explicit
state passing over an association-list store; JavaScript `undefined`
becomes an outer `Option` layer; `null` becomes the inner `Option`;
JavaScript machine integers stay in `Nat`/`Int` (no overflow is reachable
at the sizes involved).
-/

namespace TtBbs

/-- A JSON-ish value as stored in a session's `data` bag
(`mongoose.Schema.Types.Mixed`). Only the shapes the embedded routes
actually write are represented. -/
inductive JVal where
  | jnull : JVal
  | jbool : Bool → JVal
  | jstr : String → JVal
deriving DecidableEq, Repr

/-- A session document, after `src/app/models/Session.ts` (fields the
embedded code reads or writes; optional Mongo fields such as
`ipAddress` are omitted because no embedded code touches them). -/
structure BbsSession where
  sessionId : String
  userId : Option String := none
  username : Option String := none
  currentArea : String := "main"
  commandHistory : List String := []
  data : List (String × JVal) := []
  lastActivity : Int := 0
deriving DecidableEq, Repr

/-- The session store: the `sessions` collection keyed by `sessionId`
(`sessionId` is a unique index). -/
abbrev SessionStore := List (String × BbsSession)

/-- Embeds the lookup call on the sessions collection (find by sessionId). -/
def storeFind (store : SessionStore) (sid : String) : Option BbsSession :=
  (store.find? (fun p => p.fst = sid)).map (·.snd)

/-- Replace the document stored under `sid` (a `save()`/`updateOne` of an
existing document). -/
def storeReplace (store : SessionStore) (sid : String) (s : BbsSession) : SessionStore :=
  store.map (fun p => if p.fst = sid then (sid, s) else p)

/-- Insert a new document (a `save()` of a new document). -/
def storeInsert (store : SessionStore) (sid : String) (s : BbsSession) : SessionStore :=
  store ++ [(sid, s)]

/-- JavaScript object spread `{ ...a, ...b }` on string-keyed records:
keys of `b` override those of `a`; fresh keys of `b` are appended. -/
def spreadMerge (a b : List (String × JVal)) : List (String × JVal) :=
  (a.map (fun p => match b.find? (fun q => q.fst = p.fst) with
    | some q => (p.fst, q.snd)
    | none => p)) ++
  b.filter (fun q => (a.find? (fun p => p.fst = q.fst)).isNone)

/-- The partial-update argument of `updateSession` in
`src/app/api/terminal/service.ts`. An outer `none` is JavaScript
`undefined` (field absent from the update, or explicitly `undefined`):
`updateSession` skips such fields because of its `!== undefined` guards.
For `userId`/`username` the inner `Option` is JavaScript `null`/set. -/
structure SessionUpdates where
  currentArea : Option String := none
  data : Option (List (String × JVal)) := none
  userId : Option (Option String) := none
  username : Option (Option String) := none
  commandHistory : Option (List String) := none

/-- The field-by-field mutation block of `updateSession`
(service.ts lines 143-167): each field is copied from `updates` only when
the update value is not `undefined`; `data` is spread-merged; the
`lastActivity` stamp is always refreshed. -/
def applyUpdates (s : BbsSession) (u : SessionUpdates) (now : Int) : BbsSession :=
  { s with
    currentArea := match u.currentArea with
      | some a => a
      | none => s.currentArea
    data := match u.data with
      | some d => spreadMerge s.data d
      | none => s.data
    userId := match u.userId with
      | some v => v
      | none => s.userId
    username := match u.username with
      | some v => v
      | none => s.username
    commandHistory := match u.commandHistory with
      | some h => h
      | none => s.commandHistory
    lastActivity := now }

/-- The function `updateSession(sessionId, updates)` from service.ts: find the
session, apply the partial update, persist, and return the updated
session view (`none` when the session does not exist). -/
def updateSession (store : SessionStore) (sid : String) (u : SessionUpdates)
    (now : Int) : Option BbsSession × SessionStore :=
  match storeFind store sid with
  | none => (none, store)
  | some s =>
    let s' := applyUpdates s u now
    (some s', storeReplace store sid s')

/-- The function `getSession(sessionId)` from service.ts: on a hit the
`lastActivity` timestamp is bumped and saved before the session view is
returned. -/
def getSession (store : SessionStore) (sid : String) (now : Int) :
    Option BbsSession × SessionStore :=
  match storeFind store sid with
  | none => (none, store)
  | some s =>
    let s' := { s with lastActivity := now }
    (some s', storeReplace store sid s')

/-- The "basic session object" built at the top of `createSession`
(service.ts lines 20-25). -/
def basicSession (sid : String) : BbsSession :=
  { sessionId := sid, currentArea := "main", commandHistory := [], data := [] }

/-- The function `createSession(existingSessionId?)` from service.ts. Here `gen` stands in
for `uuidv4()`. `findFails`/`saveFails` inject persistence-layer
failures into the `Session.findOne` and `session.save()` calls; the
surrounding `try/catch` swallows either failure and still returns the
basic (unsaved) session object — see the source comment "Return the
basic session object even if DB save fails". -/
def createSession (store : SessionStore) (existing : Option String) (gen : String)
    (now : Int) (findFails saveFails : Bool) : BbsSession × SessionStore :=
  let sid := existing.getD gen
  let sessionData := basicSession sid
  if findFails then
    (sessionData, store)
  else
    match storeFind store sid with
    | some s => (s, store)
    | none =>
      if saveFails then
        (sessionData, store)
      else
        let doc := { sessionData with lastActivity := now }
        (sessionData, storeInsert store sid doc)

/-- The history push of `addToHistory` (service.ts lines 269-275): push
the command, then `shift()` the oldest entry when the length exceeds
100. -/
def histStep (h : List String) (c : String) : List String :=
  let h' := h ++ [c]
  if 100 < h'.length then h'.tail else h'

/-- The function `addToHistory(sessionId, command)` applied to the session document it
found: push/truncate the history and refresh `lastActivity`. -/
def addToHistory (s : BbsSession) (c : String) (now : Int) : BbsSession :=
  { s with commandHistory := histStep s.commandHistory c, lastActivity := now }

/-- The HTTP-ish outcome of the logout handler in
`src/app/api/auth/login/route.ts` (second handler in the file). -/
structure LogoutResult where
  status : Nat
  success : Bool
  message : Option String := none
  error : Option String := none
  store : SessionStore
deriving Repr

/-- The handler for POST /auth/logout: validate the session id, refuse unknown
sessions, short-circuit when no user is bound, and otherwise call
`updateSession(sessionId, { userId: undefined, username: undefined })`
before reporting `Logout successful`. The `undefined` values are the
outer `none` of `SessionUpdates`. -/
def logoutPOST (store : SessionStore) (body : Option String) (now : Int) : LogoutResult :=
  match body with
  | none => { status := 400, success := false, error := some "SessionId is required", store }
  | some sid =>
    match getSession store sid now with
    | (none, store') =>
      { status := 400, success := false, error := some "Invalid session", store := store' }
    | (some session, store') =>
      match session.userId with
      | none =>
        { status := 200, success := true, message := some "User was not logged in",
          store := store' }
      | some _ =>
        match updateSession store' sid { userId := none, username := none } now with
        | (none, store'') =>
          { status := 500, success := false, error := some "Failed to update session",
            store := store'' }
        | (some _, store'') =>
          { status := 200, success := true, message := some "Logout successful",
            store := store'' }

/-! ### String helpers shared by the routes (JavaScript string semantics,
restricted to the ASCII fragment every embedded input lives in). -/

/-- JavaScript whitespace (the ASCII part of the class used by
`String.prototype.trim` and the regex class backslash-s). -/
def isJsSpace (c : Char) : Bool :=
  c = ' ' || c = '\t' || c = '\n' || c = '\r' || c = '\x0b' || c = '\x0c'

/-- JavaScript `s.trim()`. -/
def trimJs (s : String) : String :=
  ⟨((s.data.dropWhile isJsSpace).reverse.dropWhile isJsSpace).reverse⟩

/-- JavaScript `s.toUpperCase()` (ASCII fragment). -/
def upperJs (s : String) : String :=
  ⟨s.data.map Char.toUpper⟩

/-- JavaScript `s.toLowerCase()` (ASCII fragment). -/
def lowerAscii (s : String) : String :=
  ⟨s.data.map Char.toLower⟩

/-- Decides whether the char list `s` starts with `pat`. -/
def startsWithL : List Char → List Char → Bool
  | _, [] => true
  | [], _ :: _ => false
  | a :: as, b :: bs => a = b && startsWithL as bs

/-- Decides whether the char list `s` contains `pat` as a contiguous
run (JavaScript `String.prototype.includes`). -/
def containsL : List Char → List Char → Bool
  | [], pat => pat.isEmpty
  | s@(_ :: rest), pat => startsWithL s pat || containsL rest pat

/-- JavaScript `s.startsWith(pat)` on strings. -/
def strStartsWith (s pat : String) : Bool := startsWithL s.data pat.data

/-- JavaScript `s.includes(pat)` on strings. -/
def containsSub (s pat : String) : Bool := containsL s.data pat.data

/-- Auxiliary of `splitOnChar`. -/
def splitCharAux (c : Char) : List Char → List Char → List String
  | [], acc => [⟨acc.reverse⟩]
  | x :: xs, acc =>
    if x = c then ⟨acc.reverse⟩ :: splitCharAux c xs []
    else splitCharAux c xs (x :: acc)

/-- JavaScript `s.split(c)` for a single-character separator. -/
def splitOnChar (s : String) (c : Char) : List String :=
  splitCharAux c s.data []

/-- A JavaScript string is falsy exactly when it is `undefined`, `null`
or empty; request fields are `Option String` with `none` for an absent
field. -/
def isFalsyStr (o : Option String) : Bool :=
  match o with
  | none => true
  | some s => s = ""

/-! ### Users: `src/app/models/User.ts`, the register route and
`src/app/lib/userUtils.ts`. The Mongoose user schema stores `username`
verbatim (`{ type: String, required: true, unique: true }`, no
`lowercase` option), so a `new User({...}).save()` persists exactly the
fields it is given. -/

/-- A user document (fields the embedded code reads or writes). -/
structure UserRec where
  id : String
  username : String
  displayName : String
  email : Option String := none
  passwordHash : String
  role : String := "user"
  createdAt : Int := 0
  lastLogin : Int := 0
deriving DecidableEq, Repr

/-- The username check of the register route:
regex caret `[a-zA-Z0-9_]` three-to-twenty dollar. -/
def validUsername (s : String) : Bool :=
  decide (3 ≤ s.length) && decide (s.length ≤ 20) &&
    s.data.all (fun c => c.isAlphanum || c = '_')

/-- The request body of POST /auth/register. -/
structure RegisterBody where
  username : Option String := none
  password : Option String := none
  displayName : Option String := none
  email : Option String := none
  sessionId : Option String := none

/-- Outcome of the register route: HTTP-ish status, the user document
persisted by `newUser.save()` (if any), the users collection and the
session store after the call. -/
structure RegisterResult where
  status : Nat
  success : Bool
  error : Option String := none
  savedUser : Option UserRec := none
  users : List UserRec
  store : SessionStore
  responseUsername : Option String := none
deriving Repr

/-- Builds the 400-level validation rejection of the register route. -/
def registerReject (users : List UserRec) (store : SessionStore) (msg : String) :
    RegisterResult :=
  { status := 400, success := false, error := some msg, users := users, store := store }

/-- The handler for POST /auth/register
(`src/app/api/auth/register/route.ts`). Checks run in source order:
the required-fields check treats a missing or empty `email` the same as
a missing `username` (the route requires all four of username, password,
displayName, email); the username regex; the password length; duplicate
lookups with the raw (not lowercased) username and email; then
`new User({ username, ... }).save()` stores the submitted username
verbatim, the session is resolved or created, and the user is bound to
it. `hash` stands for `bcrypt.hash(password, 10)`, `newId` for the Mongo
object id, `gen` for `uuidv4()`. -/
def registerPOST (users : List UserRec) (store : SessionStore) (body : RegisterBody)
    (hash : String → String) (newId : String) (gen : String) (now : Int) :
    RegisterResult :=
  if isFalsyStr body.username || isFalsyStr body.password ||
      isFalsyStr body.displayName || isFalsyStr body.email then
    registerReject users store "Username, password, display name, and email are required"
  else
    let username := body.username.getD ""
    let password := body.password.getD ""
    let displayName := body.displayName.getD ""
    let email := body.email.getD ""
    if !validUsername username then
      registerReject users store
        "Username must be 3-20 characters and contain only letters, numbers, and underscores"
    else if password.length < 6 then
      registerReject users store "Password must be at least 6 characters"
    else if (users.find? (fun u => u.username = username)).isSome then
      registerReject users store "Username already exists"
    else if (users.find? (fun u => u.email = some email)).isSome then
      registerReject users store "Email already in use"
    else
      let newUser : UserRec :=
        { id := newId, username := username, displayName := displayName,
          email := some email, passwordHash := hash password,
          createdAt := now, lastLogin := now }
      let users' := users ++ [newUser]
      let sessionAndStore :=
        match body.sessionId with
        | some sid =>
          match getSession store sid now with
          | (some s, st) => (s, st)
          | (none, st) => createSession st (some sid) gen now false false
        | none => createSession store none gen now false false
      let session := sessionAndStore.fst
      let store1 := sessionAndStore.snd
      match updateSession store1 session.sessionId
          { userId := some (some newId), username := some (some newUser.username) } now with
      | (none, st2) =>
        { status := 500, success := false, error := some "Failed to update session",
          savedUser := some newUser, users := users', store := st2 }
      | (some _, st2) =>
        { status := 200, success := true, savedUser := some newUser,
          users := users', store := st2, responseUsername := some newUser.username }

/-- The argument record of `createUser` in `src/app/lib/userUtils.ts`. -/
structure CreateUserData where
  username : String
  displayName : String
  password : String
  email : Option String := none
  role : Option String := none

/-- The function `createUser` from `src/app/lib/userUtils.ts`: unlike the
register route, this helper lowercases the username and email before
building the user document. -/
def createUserUtil (d : CreateUserData) (hash : String → String) (newId : String)
    (now : Int) : UserRec :=
  { id := newId, username := lowerAscii d.username, displayName := d.displayName,
    email := d.email.map lowerAscii, passwordHash := hash d.password,
    role := d.role.getD "user", createdAt := now, lastLogin := now }

/-- The function `getUserByUsername` from `src/app/lib/userUtils.ts`:
looks up by the lowercased username. -/
def getUserByUsername (users : List UserRec) (username : String) : Option UserRec :=
  users.find? (fun u => u.username = lowerAscii username)

/-! ### The terminal init endpoint (`src/app/api/terminal/init/route.ts`). -/

/-- The full welcome screen of the init route (the BBS logo followed by
the static main menu). The exact text is immaterial to the theorems; the
response carries it verbatim. -/
def generateWelcomeScreen : String :=
  "\nGARETTY'S BBS SYSTEM LOGO\n\nWELCOME TO THE GARETTY'S BBS SYSTEM!\n\n" ++
  "NODE: 1    USERS ONLINE: 1/1    SYSOP: GARETTY\nRUNNING ON: NEXT.JS 15.2.2\n\n" ++
  "MAIN MENU:\n  [1] MESSAGE BOARDS\n  [2] FILE DOWNLOADS\n  [3] ONLINE GAMES\n" ++
  "  [4] USER PROFILES\n  [5] CHAT ROOMS\n  [X] LOGOFF\n\nPLEASE MAKE A SELECTION:\n"

/-- The simplified welcome screen of the init route. -/
def generateSimplifiedWelcomeScreen : String :=
  "\nGARETTY'S BBS SYSTEM\n=====================\n\nMAIN MENU:\n  [1] MESSAGE BOARDS\n" ++
  "  [2] FILE DOWNLOADS\n  [3] ONLINE GAMES\n  [4] USER PROFILES\n  [5] CHAT ROOMS\n" ++
  "  [X] LOGOFF\n\nPLEASE MAKE A SELECTION:\n"

/-- The JSON body of GET /terminal/init. The route builds it with
`NextResponse.json({...})`, which answers with HTTP status 200; the route
has no error branch, so `status` is the constant 200. The `currentArea`
field is the literal string `'main'` in the source, independent of the
session. -/
structure InitResponse where
  status : Nat := 200
  sessionId : String
  currentArea : String
  defaultWelcomeText : String
  fullWelcomeText : String
  simpleWelcomeText : String
  menuOptions : List (String × String)
deriving DecidableEq, Repr

/-- The static menu catalog of the init route. -/
def initMenuOptions : List (String × String) :=
  [("1", "MESSAGE BOARDS"), ("2", "FILE DOWNLOADS"), ("3", "ONLINE GAMES"),
   ("4", "USER PROFILES"), ("5", "CHAT ROOMS"), ("X", "LOGOFF")]

/-- The handler for GET /terminal/init: resolve or create the session
(creating with the provided id when the id is unknown), then answer with
the welcome screens and the literal `currentArea: 'main'`. -/
def initGET (store : SessionStore) (sessionIdParam : Option String) (simplified : Bool)
    (gen : String) (now : Int) (findFails saveFails : Bool) :
    InitResponse × SessionStore :=
  let sessionAndStore :=
    match sessionIdParam with
    | some sid =>
      match getSession store sid now with
      | (some s, st) => (s, st)
      | (none, st) => createSession st (some sid) gen now findFails saveFails
    | none => createSession store none gen now findFails saveFails
  let session := sessionAndStore.fst
  let fullWelcomeText := generateWelcomeScreen
  let simpleWelcomeText := generateSimplifiedWelcomeScreen
  ({ sessionId := session.sessionId,
     currentArea := "main",
     defaultWelcomeText := if simplified then simpleWelcomeText else fullWelcomeText,
     fullWelcomeText := fullWelcomeText,
     simpleWelcomeText := simpleWelcomeText,
     menuOptions := initMenuOptions }, sessionAndStore.snd)

/-! ### The Shell (`src/app/api/terminal/command/route.ts`).

The route's `processCommand` and its helpers are embedded as pure
functions on the returned `CommandResult`. The `await updateSession` and
`onUserEnter` side effects inside the handlers, and the `await
installGithubApp`/`uninstallGithubApp` calls, are threaded as explicit
parameters (`installResult`, `uninstallResult`, `installedUrls`), since
persistence is modelled at the service layer; the route afterwards
persists `result.area` with `setCurrentArea`. Lean functions are total,
so the `try/catch` around `app.handleCommand` (which reports an in-app
error) has no corresponding branch. -/

/-- The result record `processCommand` produces (screen, area, response,
refresh). -/
structure CommandResult where
  screen : Option String
  area : String
  response : String
  refresh : Bool
deriving DecidableEq, Repr

/-- The command-handler result a BBS app returns (the route ignores the
optional `data` member). -/
structure AppResult where
  screen : Option String
  response : String
  refresh : Bool
deriving DecidableEq, Repr

/-- A BBS app as the route sees it: metadata plus the three callable
entry points the dispatcher uses. -/
structure BbsApp where
  id : String
  name : String
  version : String
  description : String
  author : String
  source : Option String := none
  getWelcomeScreen : Unit → String
  handleCommand : Option String → String → BbsSession → AppResult
  getHelp : Option String → String

/-- The in-memory app registry: a string-keyed record in the source, an
insertion-ordered association list here. -/
abbrev AppRegistry := List (String × BbsApp)

/-- Registry lookup (`apps[appId]`). -/
def regFind (apps : AppRegistry) (appId : String) : Option BbsApp :=
  (apps.find? (fun p => p.fst = appId)).map (·.snd)

/-- The function `parseAreaString` of the route: `null` for a falsy or
colon-free area, else the first two segments of the colon split. -/
def parseAreaString (area : String) : Option String × Option String :=
  if area = "" then (none, none)
  else if !(area.data.contains ':') then (none, none)
  else
    match splitOnChar area ':' with
    | appId :: screenId :: _ => (some appId, some screenId)
    | _ => (none, none)

/-- JavaScript `parseInt` on the decimal fragment the menu uses: skip
leading whitespace and an optional sign, then read leading digits;
`none` is `NaN`. -/
def parseIntJs (s : String) : Option Int :=
  let digitsVal : List Char → Option Int := fun l =>
    let ds := l.takeWhile Char.isDigit
    if ds.isEmpty then none
    else some (Int.ofNat (ds.foldl (fun n c => n * 10 + (c.toNat - 48)) 0))
  match (trimJs s).data with
  | '-' :: rest => (digitsVal rest).map (fun n => -n)
  | '+' :: rest => digitsVal rest
  | l => digitsVal l

/-- The function `generateMainMenu` of the route: header, one numbered
line per registered app (name upper-cased, GitHub tag when the app has a
source URL), and the logoff footer. -/
def generateMainMenu (apps : AppRegistry) : String :=
  let header := "\nMAIN MENU\n\n"
  let body :=
    if apps.isEmpty then
      "No apps are currently installed.\n\n" ++
      "Type INSTALL GITHUB [URL] to install an app from GitHub.\n" ++
      "Type DEBUG to see system information.\n"
    else
      ((apps.enum.map (fun p =>
        "[" ++ toString (p.fst + 1) ++ "] " ++ upperJs p.snd.snd.name ++
        (if p.snd.snd.source.isSome then " (GitHub)" else "") ++ "\n")).foldl
        (· ++ ·) "")
  header ++ body ++ "\n[X] LOGOFF\n\nPLEASE MAKE A SELECTION:"

/-- The common part of `generateHelpText`. -/
def helpHeader : String :=
  "\nCOMMON COMMANDS:\nHELP - Show this help text\nMAIN or MENU - Return to main menu\n" ++
  "EXIT, QUIT, X, or LOGOFF - Exit the BBS\nDEBUG - Show system information\n\n" ++
  "GITHUB APP COMMANDS:\nINSTALL GITHUB [URL] - Install an app from GitHub\n" ++
  "UNINSTALL GITHUB [URL] - Uninstall a GitHub app\n" ++
  "LIST GITHUB APPS - List all installed GitHub apps\n\n"

/-- Main-menu section of the help text. -/
def mainMenuHelp (apps : AppRegistry) : String :=
  if apps.isEmpty then "\nMAIN MENU COMMANDS:\nNo apps are currently available.\n"
  else "\nMAIN MENU COMMANDS:\n1-" ++ toString apps.length ++
    " - Select an app from the menu\n"

/-- The function `generateHelpText` of the route: the common header plus
the app's own help when inside an app (`appId && apps[appId]`), else the
main-menu guidance when the area is `main`, else just the header. -/
def generateHelpText (currentArea : String) (apps : AppRegistry) : String :=
  let parsed := parseAreaString currentArea
  let fallback :=
    if currentArea = "main" then helpHeader ++ mainMenuHelp apps else helpHeader
  match parsed.fst with
  | some appId =>
    if appId ≠ "" then
      match regFind apps appId with
      | some app => helpHeader ++ app.getHelp parsed.snd
      | none => fallback
    else fallback
  | none => fallback

/-- Interpretation of an app's `handleCommand` result inside
`handleAppCommand`: a changed `screen` moves the area (null exits to the
main menu), an unchanged screen stays put. A `null` current screen is
rendered as the text "null" in the area template literal, as JavaScript
string interpolation does. -/
def interpretAppResult (appId : String) (currentScreen : Option String)
    (r : AppResult) (apps : AppRegistry) : CommandResult :=
  let screenText : Option String → String := fun o =>
    match o with
    | some s => s
    | none => "null"
  if r.screen ≠ currentScreen then
    match r.screen with
    | none =>
      { screen := none, area := "main", response := generateMainMenu apps,
        refresh := true }
    | some ns =>
      { screen := some ns, area := appId ++ ":" ++ ns, response := r.response,
        refresh := r.refresh }
  else
    { screen := r.screen, area := appId ++ ":" ++ screenText currentScreen,
      response := r.response, refresh := r.refresh }

/-- The function `handleAppCommand` of the route: B/BACK returns to the
main menu, anything else is delegated to the app's `handleCommand` —
with the already upper-cased `cmd`, since `processCommand` passes `cmd`,
not the raw `command`. -/
def handleAppCommand (app : BbsApp) (appId : String) (currentScreen : Option String)
    (command : String) (session : BbsSession) (apps : AppRegistry) : CommandResult :=
  if command = "B" || command = "BACK" then
    { screen := none, area := "main", response := generateMainMenu apps,
      refresh := true }
  else
    interpretAppResult appId currentScreen
      (app.handleCommand currentScreen command session) apps

/-- The function `handleMainMenuCommands` of the route: a numeric
selection launches the corresponding app (insertion order) at screen
`home` with its welcome text; anything else yields the invalid-selection
guidance. -/
def handleMainMenuCommands (cmd : String) (session : BbsSession) (apps : AppRegistry) :
    CommandResult :=
  let appIndex := (parseIntJs cmd).map (· - 1)
  match appIndex with
  | some i =>
    if 0 ≤ i ∧ i < (apps.length : Int) then
      match apps.drop i.toNat with
      | (appId, app) :: _ =>
        { screen := some "home", area := appId ++ ":home",
          response := app.getWelcomeScreen (), refresh := true }
      | [] =>
        { screen := none, area := "main",
          response := "Invalid selection: " ++ cmd ++
            "\nPlease select a valid option (1-" ++ toString apps.length ++
            ") or type HELP for assistance.\n",
          refresh := false }
    else
      { screen := none, area := "main",
        response := "Invalid selection: " ++ cmd ++
          "\nPlease select a valid option (1-" ++ toString apps.length ++
          ") or type HELP for assistance.\n",
        refresh := false }
  | none =>
    { screen := none, area := "main",
      response := "Invalid selection: " ++ cmd ++
        "\nPlease select a valid option (1-" ++ toString apps.length ++
        ") or type HELP for assistance.\n",
      refresh := false }

/-- The function `processCommand` of the route. The dispatch order
follows the source: normalize (`cmd = command.trim().toUpperCase()`),
universal verbs, the GitHub install/uninstall/list admin verbs, then the
area dispatch — where an app area receives `cmd` (the upper-cased form),
and the main area consults `handleMainMenuCommands`. -/
def processCommand (currentArea command : String) (session : BbsSession)
    (apps : AppRegistry) (installResult : Option BbsApp) (uninstallResult : Bool)
    (installedUrls : List String) : CommandResult :=
  let cmd := upperJs (trimJs command)
  if cmd = "HELP" then
    { screen :=
        if currentArea.data.contains ':' then
          (splitOnChar currentArea ':').drop 1 |>.head?
        else none,
      area := currentArea, response := generateHelpText currentArea apps,
      refresh := false }
  else if cmd = "MAIN" || cmd = "MENU" then
    { screen := none, area := "main", response := generateMainMenu apps,
      refresh := true }
  else if cmd = "EXIT" || cmd = "QUIT" || cmd = "X" || cmd = "LOGOFF" then
    { screen := none, area := currentArea,
      response := "Logging off...\nThank you for visiting the BBS!\nPress any key to reconnect...\n",
      refresh := true }
  else if cmd = "DEBUG" then
    { screen := none, area := currentArea,
      response := "Available apps (" ++ toString apps.length ++ "):\n" ++
        String.intercalate "\n" (apps.map (·.fst)) ++
        "\n\nCurrent area: " ++ currentArea,
      refresh := false }
  else if strStartsWith cmd "INSTALL GITHUB " || strStartsWith cmd "INSTALL-GITHUB " then
    let githubUrl :=
      trimJs ⟨command.data.drop (if strStartsWith cmd "INSTALL-GITHUB " then 15 else 14)⟩
    if githubUrl = "" || !containsSub githubUrl "github.com" then
      { screen := none, area := currentArea,
        response := "Invalid GitHub URL. Format: INSTALL GITHUB https://github.com/owner/repo",
        refresh := false }
    else
      match installResult with
      | none =>
        { screen := none, area := currentArea,
          response := "Failed to install app from " ++ githubUrl ++
            ". Check the URL and try again.",
          refresh := false }
      | some installedApp =>
        if currentArea = "main" then
          { screen := none, area := "main",
            response := "Successfully installed " ++ installedApp.name ++ "!\n\n" ++
              generateMainMenu apps,
            refresh := true }
        else
          { screen := none, area := currentArea,
            response := "Successfully installed " ++ installedApp.name ++
              "!\nType MENU to return to the main menu to use the app.",
            refresh := false }
  else if strStartsWith cmd "UNINSTALL GITHUB " || strStartsWith cmd "UNINSTALL-GITHUB " then
    let githubUrl :=
      trimJs ⟨command.data.drop (if strStartsWith cmd "UNINSTALL-GITHUB " then 17 else 16)⟩
    if githubUrl = "" || !containsSub githubUrl "github.com" then
      { screen := none, area := currentArea,
        response := "Invalid GitHub URL. Format: UNINSTALL GITHUB https://github.com/owner/repo",
        refresh := false }
    else if !uninstallResult then
      { screen := none, area := currentArea,
        response := "No app installed from " ++ githubUrl ++ ".",
        refresh := false }
    else if currentArea = "main" then
      { screen := none, area := "main",
        response := "Successfully uninstalled app from " ++ githubUrl ++ "!\n\n" ++
          generateMainMenu apps,
        refresh := true }
    else
      { screen := none, area := currentArea,
        response := "Successfully uninstalled app from " ++ githubUrl ++
          "!\nType MENU to return to the main menu.",
        refresh := false }
  else if cmd = "LIST GITHUB APPS" || cmd = "LIST-GITHUB-APPS" then
    if installedUrls.isEmpty then
      { screen := none, area := currentArea,
        response := "No GitHub apps are currently installed.\nUse INSTALL GITHUB [URL] to install an app from GitHub.",
        refresh := false }
    else
      { screen := none, area := currentArea,
        response := "Installed GitHub Apps:\n\n" ++
          ((installedUrls.enum.map (fun p =>
            toString (p.fst + 1) ++ ". " ++ p.snd ++ "\n")).foldl (· ++ ·) ""),
        refresh := false }
  else
    let parsed := parseAreaString currentArea
    match parsed.fst with
    | some appId =>
      if appId ≠ "" then
        match regFind apps appId with
        | some app => handleAppCommand app appId parsed.snd cmd session apps
        | none =>
          if currentArea = "main" then handleMainMenuCommands cmd session apps
          else
            { screen := none, area := currentArea,
              response := "Unknown command: " ++ command ++
                "\nType HELP for available commands.\n",
              refresh := false }
      else if currentArea = "main" then handleMainMenuCommands cmd session apps
      else
        { screen := none, area := currentArea,
          response := "Unknown command: " ++ command ++
            "\nType HELP for available commands.\n",
          refresh := false }
    | none =>
      if currentArea = "main" then handleMainMenuCommands cmd session apps
      else
        { screen := none, area := currentArea,
          response := "Unknown command: " ++ command ++
            "\nType HELP for available commands.\n",
          refresh := false }

/-! ### Rate limiting (`src/app/api/terminal/apps/githubLoader.ts`).

Two distinct rate-limit implementations exist in the source: the closure
inside `createSecureStorage` (used by the storage facade's
getData/setData/deleteData), which applies only the per-minute cap, and
the free function `checkRateLimit` (used for getCurrentUser and the
command-execution wrapper), which additionally applies the 5-second
burst cap. -/

/-- The mutable per-app rate-limit record: per-operation timestamp logs
plus the last warning time. -/
structure RateLimitState where
  operations : List (String × List Int) := []
  lastWarning : Int := 0
deriving DecidableEq, Repr

/-- Per-minute caps from `securityConfig.rateLimiting.operations`; the
lookup falls back to 30 (`|| 30`). -/
def rateLimitFor (op : String) : Nat :=
  if op = "getData" then 100
  else if op = "setData" then 50
  else if op = "deleteData" then 20
  else if op = "commandExecution" then 30
  else if op = "getCurrentUser" then 60
  else if op = "totalMemoryUsage" then 50
  else 30

/-- Burst caps from `securityConfig.rateLimiting.maxBurstOperations`
(only the three storage operations have an entry). -/
def burstLimitFor (op : String) : Option Nat :=
  if op = "getData" then some 20
  else if op = "setData" then some 10
  else if op = "deleteData" then some 5
  else none

/-- Reads the timestamp log of `op` (initialized to empty). -/
def rlGet (rl : RateLimitState) (op : String) : List Int :=
  ((rl.operations.find? (fun p => p.fst = op)).map (·.snd)).getD []

/-- Writes back the timestamp log of `op`. -/
def rlSet (rl : RateLimitState) (op : String) (l : List Int) : RateLimitState :=
  if (rl.operations.find? (fun p => p.fst = op)).isSome then
    { rl with operations :=
        rl.operations.map (fun p => if p.fst = op then (op, l) else p) }
  else
    { rl with operations := rl.operations ++ [(op, l)] }

/-- The `checkRateLimit` closure inside `createSecureStorage`: drop
timestamps older than the 60-second window, refuse when the remaining
count has reached the per-minute cap (updating the warning time at most
once per window), otherwise log the current timestamp and accept. It has
no burst-window logic. -/
def storageCheckRateLimit (rl : RateLimitState) (op : String) (now : Int) :
    Bool × RateLimitState :=
  let limit := rateLimitFor op
  let window : Int := 60000
  let ts := (rlGet rl op).filter (fun t => now - t < window)
  if limit ≤ ts.length then
    let rl' := rlSet rl op ts
    (false, if window < now - rl.lastWarning then { rl' with lastWarning := now } else rl')
  else
    (true, rlSet rl op (ts ++ [now]))

/-- The free function `checkRateLimit` (githubLoader.ts lines 762-812):
per-minute cap as above, then the burst check over the last 5 seconds
with the operation's burst cap (default one fifth of the per-minute
cap), then log and accept. -/
def checkRateLimitGeneric (rl : RateLimitState) (op : String) (now : Int) :
    Bool × RateLimitState :=
  let limit := rateLimitFor op
  let window : Int := 60000
  let burstWindow : Int := 5000
  let maxBurst := (burstLimitFor op).getD (limit / 5)
  let ts := (rlGet rl op).filter (fun t => now - t < window)
  if limit ≤ ts.length then
    let rl' := rlSet rl op ts
    (false, if window < now - rl.lastWarning then { rl' with lastWarning := now } else rl')
  else
    let recent := ts.filter (fun t => now - t < burstWindow)
    if maxBurst ≤ recent.length then
      let rl' := rlSet rl op ts
      (false,
        if burstWindow < now - rl.lastWarning then { rl' with lastWarning := now } else rl')
    else
      (true, rlSet rl op (ts ++ [now]))

/-- The string part of `validateData` inside `createSecureStorage`: a
string is refused when it contains a code-like fragment. (The recursive
object/array cases are unreachable for the string-typed `setData`
payload.) -/
def validateDataStr (data : String) : Bool :=
  !(containsSub data "function" || containsSub data "=>" ||
    containsSub data "eval" || containsSub data "new Function")

/-- The `setData` member of the secure storage facade, restricted to its
decision logic: rate check first (recording the attempt), then data
validation, then the prefixed write (assumed to succeed at the base
store). Returns whether the write happened plus the updated rate
state. -/
def storageSetData (rl : RateLimitState) (now : Int) (data : String) :
    Bool × RateLimitState :=
  match storageCheckRateLimit rl "setData" now with
  | (false, rl') => (false, rl')
  | (true, rl') =>
    if !validateDataStr data then (false, rl')
    else (true, rl')

/-- Runs a sequence of facade `setData` calls at the given times with a
fixed benign payload, collecting each call's outcome. -/
def runSetSeq (rl : RateLimitState) : List Int → List Bool × RateLimitState
  | [] => ([], rl)
  | t :: ts =>
    let step := storageSetData rl t "v"
    let rest := runSetSeq step.snd ts
    (step.fst :: rest.fst, rest.snd)

/-- The key computed by `getKeyPrefix` in `createSecureStorage`:
`app_<appId>_` or `app_<appId>_<namespace>_`. -/
def storageKeyFor (appId namespace' key : String) : String :=
  (if namespace' ≠ "" then "app_" ++ appId ++ "_" ++ namespace' ++ "_"
   else "app_" ++ appId ++ "_") ++ key

/-! ### GitHub URL parsing (`parseGithubUrl` in githubLoader.ts). -/

/-- Result of `parseGithubUrl` (the source's `GithubRepoInfo`, with the
defaults the function always fills in). -/
structure GithubRepoInfo where
  owner : String
  repo : String
  branch : String
  path : String
deriving DecidableEq, Repr

/-- Components of a parsed absolute URL. -/
structure ParsedUrl where
  scheme : String
  host : String
  pathname : String
deriving DecidableEq, Repr

/-- Splits a char list at the first occurrence of `pat`, returning the
part before and the part after. -/
def splitFirstSub : List Char → List Char → Option (List Char × List Char)
  | [], pat => if pat.isEmpty then some ([], []) else none
  | s@(c :: rest), pat =>
    if startsWithL s pat then some ([], s.drop pat.length)
    else (splitFirstSub rest pat).map (fun p => (c :: p.fst, p.snd))

/-- Modelled fragment of the WHATWG `URL` constructor (an external
platform builtin), restricted to absolute URLs of the scheme://authority
form the loader receives: the scheme is the (alphabetic, nonempty) part
before the first "://", the host is the authority after any userinfo and
before any port, and the pathname is what follows the authority up to a
query or fragment (defaulting to "/"). Percent-decoding and host
normalization are omitted; a string without a valid scheme or host
throws, i.e. returns `none` here. -/
def parseUrl (s : String) : Option ParsedUrl :=
  match splitFirstSub s.data ("://".data) with
  | none => none
  | some (schemeChars, rest) =>
    if schemeChars.isEmpty || !schemeChars.all (fun c => c.isAlpha) then none
    else
      let authority := rest.takeWhile (fun c => c ≠ '/' && c ≠ '?' && c ≠ '#')
      let afterAt := ((splitCharAux '@' authority []).getLast?).getD ""
      let host := afterAt.data.takeWhile (fun c => c ≠ ':')
      if host.isEmpty then none
      else
        let pathAndMore := rest.drop authority.length
        let pathname := pathAndMore.takeWhile (fun c => c ≠ '?' && c ≠ '#')
        some { scheme := ⟨schemeChars⟩, host := ⟨host⟩,
               pathname := if pathname.isEmpty then "/" else ⟨pathname⟩ }

/-- JavaScript `url.replace(/\/+$/, '')`: strip trailing slashes. -/
def stripTrailingSlashes (s : String) : String :=
  ⟨(s.data.reverse.dropWhile (fun c => c = '/')).reverse⟩

/-- Joins path segments with slashes (`parts.slice(4).join('/')`). -/
def joinSlash (parts : List String) : String :=
  String.intercalate "/" parts

/-- The function `parseGithubUrl` (githubLoader.ts lines 258-298): strip
trailing slashes; refuse unless the string *contains* "github.com" (a
substring test, not a host check); parse with the URL constructor
(returning null on a parse failure via the catch); take the non-empty
pathname segments; require at least owner and repo; read an optional
`tree/<branch>/<subpath>` suffix, defaulting the branch to "main" and
the subpath to the empty string. -/
def parseGithubUrl (url : String) : Option GithubRepoInfo :=
  let url := stripTrailingSlashes url
  if !containsSub url "github.com" then none
  else
    match parseUrl url with
    | none => none
    | some u =>
      let pathParts := (splitOnChar u.pathname '/').filter (fun p => p ≠ "")
      if pathParts.length < 2 then none
      else
        let owner := pathParts.headD ""
        let repo := (pathParts.drop 1).headD ""
        if 3 < pathParts.length ∧ (pathParts.drop 2).headD "" = "tree" then
          some { owner := owner, repo := repo,
                 branch := (pathParts.drop 3).headD "",
                 path := joinSlash (pathParts.drop 4) }
        else
          some { owner := owner, repo := repo, branch := "main", path := "" }

/-! ### Static analysis (`analyzeCodeForMaliciousPatterns` in
githubLoader.ts).

The ten regular expressions of
`securityConfig.forbiddenPatterns.regexPatterns` are embedded as
decidable has-a-match predicates over the source characters; the acorn
parse (an external library call) is an explicit `Option JsNode`
argument, `none` standing for a parse failure caught by the
surrounding try/catch. -/

/-- Reads the character at index `i`, with a non-word placeholder beyond
the end (out-of-range probes then fail every character-class test, which
matches the regex semantics at the string edges). -/
def charAt (s : List Char) (i : Nat) : Char := ((s.drop i).headD ' ')

/-- The regex word class backslash-w: `[A-Za-z0-9_]`. -/
def isWordChar (c : Char) : Bool := c.isAlphanum || c = '_'

/-- The left brace character, `{`. -/
def lbraceChar : Char := Char.ofNat 123

/-- The right brace character, `}`. -/
def rbraceChar : Char := Char.ofNat 125

/-- The backtick character. -/
def backtickChar : Char := Char.ofNat 96

/-- A JavaScript quote: single, double, or backtick (the regex class
quote-doublequote-backtick). -/
def isQuote3 (c : Char) : Bool := c = '\'' || c = '"' || c = backtickChar

/-- The hex-digit class `[0-9a-f]` under the case-insensitive flag. -/
def isHexDigit (c : Char) : Bool :=
  c.isDigit || (decide ('a' ≤ c.toLower) && decide (c.toLower ≤ 'f'))

/-- Number of occurrences of a character. -/
def countChar (s : List Char) (c : Char) : Nat := (s.filter (fun x => x = c)).length

/-- Absolute difference on naturals (the source's `Math.abs` of a
signed count difference). -/
def natDist (a b : Nat) : Nat := max a b - min a b

/-- Word-boundary-delimited occurrence of `w` at index `i`
(regex backslash-b w backslash-b). -/
def matchWordAt (s w : List Char) (i : Nat) : Bool :=
  startsWithL (s.drop i) w &&
  (decide (i = 0) || !isWordChar (charAt s (i - 1))) &&
  (decide (s.length ≤ i + w.length) || !isWordChar (charAt s (i + w.length)))

/-- Word-boundary-delimited occurrence of `w` anywhere in `s`. -/
def matchWord (s w : List Char) : Bool :=
  (List.range (s.length + 1)).any (fun i => matchWordAt s w i)

/-- Occurrence of the bracketed quoted word, with the two quote
characters drawn independently from the single/double class (the regex
bracket quote-class w quote-class bracket). -/
def bracketQuoted (s w : List Char) : Bool :=
  (List.range (s.length + 1)).any (fun i =>
    charAt s i = '[' &&
    (charAt s (i + 1) = '\'' || charAt s (i + 1) = '"') &&
    startsWithL (s.drop (i + 2)) w &&
    (charAt s (i + 2 + w.length) = '\'' || charAt s (i + 2 + w.length) = '"') &&
    charAt s (i + 3 + w.length) = ']')

/-- Occurrence of the bracketed quoted word immediately followed by an
empty call `()`. -/
def bracketQuotedCall (s w : List Char) : Bool :=
  (List.range (s.length + 1)).any (fun i =>
    charAt s i = '[' &&
    (charAt s (i + 1) = '\'' || charAt s (i + 1) = '"') &&
    startsWithL (s.drop (i + 2)) w &&
    (charAt s (i + 2 + w.length) = '\'' || charAt s (i + 2 + w.length) = '"') &&
    charAt s (i + 3 + w.length) = ']' &&
    charAt s (i + 4 + w.length) = '(' &&
    charAt s (i + 5 + w.length) = ')')

/-- The word `w` bracketed in fixed single quotes. -/
def sqBracketed (w : List Char) : List Char :=
  '[' :: '\'' :: (w ++ ['\'', ']'])

/-- The word `w` bracketed in fixed double quotes. -/
def dqBracketed (w : List Char) : List Char :=
  '[' :: '"' :: (w ++ ['"', ']'])

/-- Regex 1: proto/prototype access, dotted or bracket-quoted. -/
def rxProtoAccess (s : List Char) : Bool :=
  containsL s ".__proto__".data || bracketQuoted s "__proto__".data ||
  containsL s ".prototype".data || bracketQuoted s "prototype".data

/-- Regex 2: word-bounded global, globalThis, process, require, module,
exports. -/
def rxGlobals (s : List Char) : Bool :=
  matchWord s "global".data || matchWord s "globalThis".data ||
  matchWord s "process".data || matchWord s "require".data ||
  matchWord s "module".data || matchWord s "exports".data

/-- Regex 3: string assembly that looks like a dynamic eval — a quote,
later another quote, later a plus, later a quote immediately followed by
the word eval, later a closing quote. A lazy regex matches somewhere iff
such positions exist. -/
def rxStringEval (s : List Char) : Bool :=
  let n := s.length
  (List.range n).any (fun i => isQuote3 (charAt s i) &&
    ((List.range n).any (fun j => decide (i < j) && isQuote3 (charAt s j) &&
      ((List.range n).any (fun k => decide (j < k) && charAt s k = '+' &&
        ((List.range n).any (fun m => decide (k < m) && isQuote3 (charAt s m) &&
          startsWithL (s.drop (m + 1)) "eval".data &&
          ((List.range n).any (fun q => decide (m + 4 < q) && isQuote3 (charAt s q))))))))))

/-- Regex 4: obfuscated escape sequences — a literal backslash, then x
with two hex digits or u with four hex digits, case-insensitively. -/
def rxEscapes (s : List Char) : Bool :=
  (List.range s.length).any (fun i =>
    charAt s i = '\\' &&
    (((charAt s (i + 1)).toLower = 'x' && isHexDigit (charAt s (i + 2)) &&
        isHexDigit (charAt s (i + 3))) ||
     ((charAt s (i + 1)).toLower = 'u' && isHexDigit (charAt s (i + 2)) &&
        isHexDigit (charAt s (i + 3)) && isHexDigit (charAt s (i + 4)) &&
        isHexDigit (charAt s (i + 5)))))

/-- Regex 5: dynamic function construction — new, whitespace, Function;
or Function, optional whitespace, an opening parenthesis. -/
def rxNewFunction (s : List Char) : Bool :=
  ((List.range (s.length + 1)).any (fun i =>
    startsWithL (s.drop i) "new".data &&
    (let rest := s.drop (i + 3)
     let ws := rest.takeWhile isJsSpace
     decide (1 ≤ ws.length) && startsWithL (rest.drop ws.length) "Function".data))) ||
  ((List.range (s.length + 1)).any (fun i =>
    startsWithL (s.drop i) "Function".data &&
    charAt ((s.drop (i + 8)).dropWhile isJsSpace) 0 = '('))

/-- Regex 6: a word-bounded with followed by optional whitespace and an
opening parenthesis. -/
def rxWith (s : List Char) : Bool :=
  (List.range (s.length + 1)).any (fun i =>
    (decide (i = 0) || !isWordChar (charAt s (i - 1))) &&
    startsWithL (s.drop i) "with".data &&
    charAt ((s.drop (i + 4)).dropWhile isJsSpace) 0 = '(')

/-- Regex 7: word-bounded window, document, location, navigator. -/
def rxWindow (s : List Char) : Bool :=
  matchWord s "window".data || matchWord s "document".data ||
  matchWord s "location".data || matchWord s "navigator".data

/-- Regex 8: hidden function execution — a closing parenthesis directly
followed by an opening parenthesis or a dot. -/
def rxHiddenExec (s : List Char) : Bool :=
  (List.range s.length).any (fun i =>
    charAt s i = ')' && (charAt s (i + 1) = '(' || charAt s (i + 1) = '.'))

/-- Regex 9: constructor access, dotted or bracketed with matching
quotes. -/
def rxConstructorAccess (s : List Char) : Bool :=
  containsL s ".constructor".data || containsL s (sqBracketed "constructor".data) ||
  containsL s (dqBracketed "constructor".data)

/-- Regex 10: source-code access attempts through toString. -/
def rxToStringAccess (s : List Char) : Bool :=
  containsL s ".toString()".data || bracketQuotedCall s "toString".data ||
  containsL s (sqBracketed "constructor".data ++ sqBracketed "toString".data)

/-- The ten regex checks in source order, each with a short tag used in
the rejection reason (the source interpolates the regex text itself). -/
def regexChecks : List (String × (List Char → Bool)) :=
  [("proto-prototype-access", rxProtoAccess),
   ("global-process-require-module-exports", rxGlobals),
   ("string-concat-eval", rxStringEval),
   ("escape-sequences", rxEscapes),
   ("dynamic-function-creation", rxNewFunction),
   ("with-statement", rxWith),
   ("window-document-access", rxWindow),
   ("hidden-function-execution", rxHiddenExec),
   ("constructor-access", rxConstructorAccess),
   ("tostring-access", rxToStringAccess)]

/-- First regex (in source order) matching the code, if any. -/
def firstRegexHit (code : List Char) : Option String :=
  ((regexChecks.find? (fun p => p.snd code)).map (·.fst))

/-- The forbidden-global list `securityConfig.forbiddenPatterns.globalAccess`. -/
def globalAccessList : List String :=
  ["window", "document", "location", "localStorage", "sessionStorage",
   "navigator", "process", "global", "globalThis", "constructor", "Buffer",
   "ArrayBuffer", "Int8Array", "Uint8Array", "Uint8ClampedArray",
   "Int16Array", "Uint16Array", "Int32Array", "Uint32Array", "Float32Array",
   "Float64Array", "BigInt64Array", "BigUint64Array"]

/-- The dangerous-builtin list `securityConfig.forbiddenPatterns.dangerousMethods`. -/
def dangerousMethodsList : List String :=
  ["eval", "Function", "setTimeout", "setInterval", "fetch",
   "XMLHttpRequest", "WebSocket", "Worker", "importScripts", "Proxy",
   "reflect", "bind", "call", "apply", "toString", "constructor",
   "prototype", "__proto__", "defineProperty", "defineProperties",
   "getOwnPropertyDescriptor", "getOwnPropertyNames", "getPrototypeOf",
   "setPrototypeOf"]

/-- The forbidden-module list `securityConfig.forbiddenPatterns.dangerousImports`. -/
def dangerousImportsList : List String :=
  ["fs", "path", "child_process", "os", "net", "dgram", "crypto", "http",
   "https", "vm", "v8", "worker_threads", "cluster", "inspector",
   "perf_hooks", "process", "stream", "tls", "zlib", "readline", "repl",
   "tty", "url", "util", "isolated-vm", "acorn", "estraverse"]

/-- An abstraction of the ESTree nodes the AST walker inspects: exactly
the constructors whose types the `estraverse.traverse` callbacks branch
on (function kinds are collapsed into one constructor since the three
function node types are treated identically). -/
inductive JsNode where
  | program (body : List JsNode)
  | exprStmt (e : JsNode)
  | callExpr (callee : JsNode) (args : List JsNode)
  | ident (name : String)
  | litStr (value : String)
  | member (obj : JsNode) (prop : JsNode)
  | func (params : List JsNode) (body : JsNode)
  | block (body : List JsNode)
  | objectExpr (props : List JsNode)
  | arrayExpr (elems : List JsNode)
  | importDecl (source : String)
  | withStmt (body : JsNode)

/-- JavaScript `node.property.name`: defined exactly when the property
node is an identifier. -/
def propNameOf (prop : JsNode) : Option String :=
  match prop with
  | .ident n => some n
  | _ => none

/-- The property-chain collection of the member-expression check: walk
down the object spine gathering property names, and yield the chain only
when the spine bottoms out in an identifier. -/
def memberChain : JsNode → List String → Option (List String)
  | .ident n, acc => some (n :: acc)
  | .member obj prop, acc =>
    memberChain obj
      (match propNameOf prop with
       | some n => n :: acc
       | none => acc)
  | _, _ => none

/-- Renders the chain as the dot-joined reason text. -/
def joinDot (l : List String) : String := String.intercalate "." l

/-- The constructor/prototype chain test of the member-expression
check. -/
def chainCheck (obj prop : JsNode) : Option String :=
  match memberChain obj (match propNameOf prop with
    | some n => [n]
    | none => []) with
  | some chain =>
    if chain.contains "constructor" || chain.contains "prototype" ||
        chain.contains "__proto__" then
      some ("Unauthorized access to dangerous property chain: " ++ joinDot chain)
    else none
  | none => none

/-- The per-node violation test of the `estraverse` enter callback, in
source order within each node type. `none` means no violation at this
node. -/
def nodeCheck (n : JsNode) : Option String :=
  match n with
  | .func params _ =>
    if 20 < params.length then
      some ("Function has excessive parameters (" ++ toString params.length ++ ")")
    else none
  | .ident name =>
    if globalAccessList.contains name then
      some ("Unauthorized access to global object: " ++ name)
    else none
  | .callExpr callee args =>
    (match callee with
     | .ident cn =>
       if dangerousMethodsList.contains cn then
         some ("Use of dangerous method: " ++ cn)
       else if cn = "require" then
         match args.head? with
         | some (.litStr m) =>
           if dangerousImportsList.contains m then
             some ("Require of dangerous module: " ++ m)
           else none
         | _ => none
       else none
     | .member _ prop =>
       if propNameOf prop = some "toString" then
         match args.head? with
         | some (.litStr "Function") =>
           some "Potential Function constructor access through toString method"
         | _ => none
       else none
     | _ => none)
  | .member obj prop =>
    (match obj with
     | .ident objName =>
       if globalAccessList.contains objName then
         some ("Unauthorized access to global object property: " ++ objName ++ "." ++
           (propNameOf prop).getD "?")
       else chainCheck obj prop
     | _ => chainCheck obj prop)
  | .importDecl src =>
    if dangerousImportsList.contains src then
      some ("Import of dangerous module: " ++ src)
    else none
  | .withStmt _ => some "Use of with statement is forbidden for security reasons"
  | _ => none

/-- The structural counters the traversal accumulates: current block
nesting, deepest nesting seen, and function count. -/
structure WalkSt where
  nesting : Nat := 0
  deepest : Nat := 0
  funcs : Nat := 0
deriving DecidableEq, Repr

mutual

/-- Depth-first traversal of the tree in `estraverse` order: check
each node on enter (stopping at the first violation, the source's
`this.break()`), bump the nesting counters around block-like nodes and
the function counter at function nodes. -/
def walkNode : JsNode → WalkSt → Except String WalkSt
  | .program body, st => walkList body st
  | .exprStmt e, st => walkNode e st
  | .callExpr callee args, st =>
    (match nodeCheck (.callExpr callee args) with
     | some r => .error r
     | none =>
       match walkNode callee st with
       | .error r => .error r
       | .ok st1 => walkList args st1)
  | .ident name, st =>
    (match nodeCheck (.ident name) with
     | some r => .error r
     | none => .ok st)
  | .litStr _, st => .ok st
  | .member obj prop, st =>
    (match nodeCheck (.member obj prop) with
     | some r => .error r
     | none =>
       match walkNode obj st with
       | .error r => .error r
       | .ok st1 => walkNode prop st1)
  | .func params body, st =>
    (match nodeCheck (.func params body) with
     | some r => .error r
     | none =>
       let st1 := { st with funcs := st.funcs + 1 }
       match walkList params st1 with
       | .error r => .error r
       | .ok st2 => walkNode body st2)
  | .block body, st =>
    (let st1 := { st with nesting := st.nesting + 1,
                          deepest := max st.deepest (st.nesting + 1) }
     match walkList body st1 with
     | .error r => .error r
     | .ok st2 => .ok { st2 with nesting := st2.nesting - 1 })
  | .objectExpr props, st =>
    (let st1 := { st with nesting := st.nesting + 1,
                          deepest := max st.deepest (st.nesting + 1) }
     match walkList props st1 with
     | .error r => .error r
     | .ok st2 => .ok { st2 with nesting := st2.nesting - 1 })
  | .arrayExpr elems, st =>
    (let st1 := { st with nesting := st.nesting + 1,
                          deepest := max st.deepest (st.nesting + 1) }
     match walkList elems st1 with
     | .error r => .error r
     | .ok st2 => .ok { st2 with nesting := st2.nesting - 1 })
  | .importDecl src, st =>
    (match nodeCheck (.importDecl src) with
     | some r => .error r
     | none => .ok st)
  | .withStmt body, st =>
    (match nodeCheck (.withStmt body) with
     | some r => .error r
     | none => walkNode body st)

/-- Traverses siblings left to right, threading the counters. -/
def walkList : List JsNode → WalkSt → Except String WalkSt
  | [], st => .ok st
  | n :: ns, st =>
    match walkNode n st with
    | .error r => .error r
    | .ok st1 => walkList ns st1

end

/-- Result record of the analyzer (`{ safe, reason? }`; the reason is
empty when safe). -/
structure AnalysisResult where
  safe : Bool
  reason : String := ""
deriving DecidableEq, Repr

/-- The function `analyzeCodeForMaliciousPatterns` (githubLoader.ts
lines 334-575), checks in source order: 1 MiB size cap, 10000-line cap,
1000-brace cap, the ten regexes, bracket balance within 5, the acorn
parse (failure is caught and reported), the AST walk, then the
structural nesting and function-count caps. -/
def analyzeCodeForMaliciousPatterns (code : List Char) (ast : Option JsNode) :
    AnalysisResult :=
  if 1048576 < code.length then
    { safe := false, reason := "Code size exceeds maximum allowed limit of 1MB" }
  else if 10000 < countChar code '\n' + 1 then
    { safe := false, reason := "Code contains too many lines, possibly obfuscated" }
  else if 1000 < countChar code lbraceChar then
    { safe := false,
      reason := "Code contains excessive nesting depth, possibly obfuscated" }
  else
    match firstRegexHit code with
    | some tag =>
      { safe := false, reason := "Code contains forbidden pattern: " ++ tag }
    | none =>
      if 5 < natDist (countChar code '(') (countChar code ')') ∨
          5 < natDist (countChar code lbraceChar) (countChar code rbraceChar) ∨
          5 < natDist (countChar code '[') (countChar code ']') then
        { safe := false,
          reason := "Code contains unbalanced syntax elements, possibly malformed or obfuscated" }
      else
        match ast with
        | none => { safe := false, reason := "Code analysis failed: parse error" }
        | some tree =>
          match walkNode tree {} with
          | .error r => { safe := false, reason := r }
          | .ok st =>
            if 20 < st.deepest then
              { safe := false,
                reason := "Code has excessive nesting depth (" ++ toString st.deepest ++
                  " levels)" }
            else if 200 < st.funcs then
              { safe := false,
                reason := "Code contains too many functions (" ++ toString st.funcs ++ ")" }
            else { safe := true, reason := "" }

/-! ### Sandbox execution, loading and installation
(`executeSandboxedApp`, `loadAppFromGithub` in githubLoader.ts;
`installGithubApp` in the app loader module).

External effects appear as explicit oracles: `mainCode` is the text the
raw-content fetch returned (`none` for a fetch failure), `ast` its acorn
parse, and `runResult` the module the isolate would export if it were
run (the source reads `exports.default || exports` out of the isolate).
The embedding keeps the control flow: the isolate is created only after
the static analysis passes. -/

/-- Validation probe session of `isValidBbsApp` in githubLoader.ts. -/
def probeSession : BbsSession :=
  { sessionId := "test-session", currentArea := "validation",
    commandHistory := [], data := [] }

/-- The function `isValidBbsApp` of githubLoader.ts, restricted to the
checks that are not vacuous in a typed embedding: the length bounds on
id/name/description, the welcome-screen bound, and the probe
`handleCommand(null, 'HELP', testSession)` response bound. (The
`typeof` shape checks and the result-structure checks hold by typing
here.) -/
def isValidBbsApp (app : BbsApp) : Bool :=
  decide (app.id.length ≤ 50) && decide (app.name.length ≤ 100) &&
  decide (app.description.length ≤ 500) &&
  decide ((app.getWelcomeScreen ()).length ≤ 10000) &&
  decide ((app.handleCommand none "HELP" probeSession).response.length ≤ 10000)

/-- JavaScript `s.replace(/[^\w-]/g, '')`. -/
def sanitizeWord (s : String) : String :=
  ⟨s.data.filter (fun c => isWordChar c || c = '-')⟩

/-- The screen-id sanitization of the secure wrapper:
`screenId?.replace(/[^\w-]/g, '') || null`. -/
def sanitizeScreenId (o : Option String) : Option String :=
  match o with
  | none => none
  | some s =>
    let t := sanitizeWord s
    if t = "" then none else some t

/-- The capability wrapper `secureApp` built in `loadAppFromGithub`
(githubLoader.ts lines 1218-1344): the id is overridden with the
synthesized GitHub id, `source` is set to the URL, screen ids are
sanitized, commands truncated to 1000 characters, responses truncated to
10000. The per-call `commandExecution` rate check and the `try/catch`
error translation thread mutable state and exceptions, which a pure
function cannot carry; the rate-limit logic itself is
`checkRateLimitGeneric` above. -/
def wrapSecureApp (appId url : String) (app : BbsApp) : BbsApp :=
  { app with
    id := appId,
    source := some url,
    getWelcomeScreen := fun _ => app.getWelcomeScreen (),
    handleCommand := fun screenId command session =>
      let r := app.handleCommand (sanitizeScreenId screenId)
        ⟨command.data.take 1000⟩ session
      { screen := r.screen, response := ⟨r.response.data.take 10000⟩,
        refresh := r.refresh },
    getHelp := fun screenId => app.getHelp (sanitizeScreenId screenId) }

/-- Outcome of `executeSandboxedApp`: the analysis verdict, whether the
isolate was created and the script run at all, and the extracted app. -/
structure SandboxOutcome where
  analysis : AnalysisResult
  sandboxRan : Bool
  app : Option BbsApp

/-- The function `executeSandboxedApp` (githubLoader.ts lines 817-1032):
the static analysis runs first and a rejection returns null without
creating the isolate; otherwise the script runs and its export (the
`runResult` oracle) is returned. -/
def executeSandboxedApp (code : List Char) (ast : Option JsNode)
    (runResult : Option BbsApp) : SandboxOutcome :=
  let analysis := analyzeCodeForMaliciousPatterns code ast
  if analysis.safe then
    { analysis := analysis, sandboxRan := true, app := runResult }
  else
    { analysis := analysis, sandboxRan := false, app := none }

/-- The in-module GitHub app cache `githubApps`: synthesized app id to
(wrapped app, repo info, last-updated time). -/
abbrev GithubCache := List (String × (BbsApp × GithubRepoInfo × Int))

/-- Cache lookup by app id. -/
def cacheFind (cache : GithubCache) (appId : String) :
    Option (BbsApp × GithubRepoInfo × Int) :=
  (cache.find? (fun p => p.fst = appId)).map (·.snd)

/-- Cache write (replace on id clash, append otherwise). -/
def cacheSet (cache : GithubCache) (appId : String)
    (entry : BbsApp × GithubRepoInfo × Int) : GithubCache :=
  if (cache.find? (fun p => p.fst = appId)).isSome then
    cache.map (fun p => if p.fst = appId then (appId, entry) else p)
  else cache ++ [(appId, entry)]

/-- JavaScript `path.replace(/\//g, '_')`. -/
def replaceSlashUnderscore (s : String) : String :=
  ⟨s.data.map (fun c => if c = '/' then '_' else c)⟩

/-- The synthesized app id
`github_<owner>_<repo>[_<path with slashes replaced>]`. -/
def githubAppId (info : GithubRepoInfo) : String :=
  "github_" ++ info.owner ++ "_" ++ info.repo ++
  (if info.path ≠ "" then "_" ++ replaceSlashUnderscore info.path else "")

/-- The decoded package.json manifest (`main` and the dependency
names). -/
structure PkgData where
  main : Option String := none
  dependencies : List String := []

/-- Result of `loadAppFromGithub`: the loaded app (if any), the cache
afterwards, and the sandbox outcome when execution was attempted
(`none` when the flow stopped before `executeSandboxedApp`, e.g. URL
parse failure, fresh-cache hit, or fetch failure). -/
structure LoadOutcome where
  app : Option BbsApp
  cache : GithubCache
  sandbox : Option SandboxOutcome

/-- The function `loadAppFromGithub` (githubLoader.ts lines 1142-1365):
parse the URL (fail fast), synthesize the app id, return a cache entry
younger than one hour, otherwise fetch the manifest (which only selects
the file name behind the `mainCode` oracle) and the main file, run the
sandbox, validate, wrap, and cache. Every failure returns null with the
cache unchanged. -/
def loadAppFromGithub (url : String) (cache : GithubCache) (now : Int)
    (_pkg : Option PkgData) (mainCode : Option (List Char)) (ast : Option JsNode)
    (runResult : Option BbsApp) : LoadOutcome :=
  match parseGithubUrl url with
  | none => { app := none, cache := cache, sandbox := none }
  | some repoInfo =>
    let appId := githubAppId repoInfo
    let fresh : LoadOutcome :=
      match mainCode with
      | none => { app := none, cache := cache, sandbox := none }
      | some code =>
        let sandbox := executeSandboxedApp code ast runResult
        match sandbox.app with
        | none => { app := none, cache := cache, sandbox := some sandbox }
        | some app =>
          if !isValidBbsApp app then
            { app := none, cache := cache, sandbox := some sandbox }
          else
            let secureApp := wrapSecureApp appId url app
            { app := some secureApp,
              cache := cacheSet cache appId (secureApp, repoInfo, now),
              sandbox := some sandbox }
    match cacheFind cache appId with
    | some entry =>
      if now - entry.snd.snd < 3600000 then
        { app := some entry.fst, cache := cache, sandbox := none }
      else fresh
    | none => fresh

/-- The module-level state of the app loader: the registry, the list of
installed GitHub URLs, and the loader's cache. -/
structure AppLoaderState where
  registry : AppRegistry := []
  installedUrls : List String := []
  cache : GithubCache := []

/-- Registry write (`appRegistry[app.id] = app`): replace on id clash,
append otherwise. -/
def regSet (reg : AppRegistry) (appId : String) (app : BbsApp) : AppRegistry :=
  if (reg.find? (fun p => p.fst = appId)).isSome then
    reg.map (fun p => if p.fst = appId then (appId, app) else p)
  else reg ++ [(appId, app)]

/-- Finds a registered app whose `source` equals the URL. -/
def findBySource (reg : AppRegistry) (url : String) : Option BbsApp :=
  (reg.find? (fun p => p.snd.source = some url)).map (·.snd)

/-- The function `installGithubApp` of the app loader module: an already
installed URL with a matching registry entry is returned as-is;
otherwise `loadAppFromGithub` runs, a null result leaves the registry
and URL list untouched, and a successful load is registered and its URL
recorded. (The `app.onInit()` hook call has no registry effect and is
omitted.) -/
def installGithubApp (st : AppLoaderState) (url : String) (now : Int)
    (pkg : Option PkgData) (mainCode : Option (List Char)) (ast : Option JsNode)
    (runResult : Option BbsApp) : Option BbsApp × AppLoaderState :=
  let load : Option BbsApp × AppLoaderState :=
    let out := loadAppFromGithub url st.cache now pkg mainCode ast runResult
    match out.app with
    | none => (none, { st with cache := out.cache })
    | some app =>
      (some app,
        { registry := regSet st.registry app.id app,
          installedUrls :=
            if st.installedUrls.contains url then st.installedUrls
            else st.installedUrls ++ [url],
          cache := out.cache })
  if st.installedUrls.contains url then
    match findBySource st.registry url with
    | some app => (some app, st)
    | none => load
  else load

/-- The function `getInstalledGithubAppUrls` of the app loader module. -/
def getInstalledGithubAppUrls (st : AppLoaderState) : List String :=
  st.installedUrls

/-- The main-file text of boundary scenario 5: the characters of
eval('1+1'). -/
def evalCode : List Char :=
  ['e', 'v', 'a', 'l', '(', '\'', '1', '+', '1', '\'', ')']

/-- The acorn parse of `evalCode`: an expression statement whose
expression is a call of the identifier eval on the string literal
1+1. -/
def evalAst : JsNode :=
  .program [.exprStmt (.callExpr (.ident "eval") [.litStr "1+1"])]

/-- The GitHub URL used to exercise the rejected install. -/
def evalUrl : String := "https://github.com/evil/app"

/-- An app whose `handleCommand` answers with exactly the command string
it received, used to observe what the Shell forwards. -/
def echoApp : BbsApp :=
  { id := "app1", name := "Echo", version := "1.0", description := "echo",
    author := "t",
    getWelcomeScreen := fun _ => "welcome",
    handleCommand := fun _ c _ => { screen := some "home", response := c, refresh := false },
    getHelp := fun _ => "help" }

/-- A rate-limit state carrying `k` accepted `setData` stamps at time
zero (the state reached after `k` accepted sets). -/
def rlStateOf (k : Nat) : RateLimitState :=
  { operations := [("setData", List.replicate k (0 : Int))], lastWarning := 0 }

/-- A session bound to user u1, the logout failing input. -/
def boundSession : BbsSession :=
  { sessionId := "s1", userId := some "u1", username := some "alice" }

/-- A session parked inside an app area, the init-resume input. -/
def areaSession : BbsSession :=
  { sessionId := "k1", currentArea := "hangman:play" }

/-- Register request without an email field. -/
def noEmailBody : RegisterBody :=
  { username := some "alice", password := some "secret1",
    displayName := some "Alice" }

/-- Register request with a mixed-case username. -/
def mixedCaseBody : RegisterBody :=
  { username := some "Alice_99", password := some "secret1",
    displayName := some "Al", email := some "a@b.c" }

/-! ## Theorems -/

/-- Store lookup after an insert, at a key that was already present:
unchanged. -/
theorem storeFind_insert_of_found (store : SessionStore) (sid : String)
    (doc : BbsSession) (k : String) (s : BbsSession)
    (h : storeFind store k = some s) :
    storeFind (storeInsert store sid doc) k = some s := by
  unfold storeFind at h
  unfold storeFind storeInsert
  rw [List.find?_append]
  cases hf : store.find? (fun p => p.fst = k) with
  | none => rw [hf] at h; simp at h
  | some pair => rw [hf] at h; simpa using h

/-- Store lookup after a replace, at the replaced key: the new document
when the key was present. -/
theorem storeFind_replace_self (store : SessionStore) (sid : String) (v : BbsSession) :
    storeFind (storeReplace store sid v) sid = (storeFind store sid).map (fun _ => v) := by
  induction store with
  | nil => rfl
  | cons p rest ih =>
    unfold storeFind storeReplace at ih ⊢
    by_cases hp : p.fst = sid
    · simp [List.map_cons, hp]
    · simp only [List.map_cons, if_neg hp]
      rw [List.find?_cons_of_neg _ (by simpa using hp),
        List.find?_cons_of_neg _ (by simpa using hp)]
      exact ih

/-- Store lookup after a replace, at any other key: unchanged. -/
theorem storeFind_replace_other (store : SessionStore) (sid : String) (v : BbsSession)
    (k : String) (hk : k ≠ sid) :
    storeFind (storeReplace store sid v) k = storeFind store k := by
  induction store with
  | nil => rfl
  | cons p rest ih =>
    unfold storeFind storeReplace at ih ⊢
    by_cases hp : p.fst = sid
    · have hpk : ¬ p.fst = k := by rw [hp]; exact fun e => hk e.symm
      simp only [List.map_cons, if_pos hp]
      rw [List.find?_cons_of_neg _ (by simp; exact fun e => hk e.symm),
        List.find?_cons_of_neg _ (by simpa using hpk)]
      exact ih
    · by_cases hpk : p.fst = k
      · simp only [List.map_cons, if_neg hp]
        rw [List.find?_cons_of_pos _ (by simpa using hpk),
          List.find?_cons_of_pos _ (by simpa using hpk)]
      · simp only [List.map_cons, if_neg hp]
        rw [List.find?_cons_of_neg _ (by simpa using hpk),
          List.find?_cons_of_neg _ (by simpa using hpk)]
        exact ih

/-- Claim C1 failing input: a session bound to user u1 is logged out.
The handler reports success, yet the stored session still carries
`userId = u1` and `username = alice`, because `updateSession` skips
fields whose update value is `undefined` and the logout handler passes
exactly `{ userId: undefined, username: undefined }`. -/
theorem logout_leaves_user_bound :
    (logoutPOST [("s1", boundSession)] (some "s1") 5).success = true ∧
    (logoutPOST [("s1", boundSession)] (some "s1") 5).message =
      some "Logout successful" ∧
    (storeFind (logoutPOST [("s1", boundSession)] (some "s1") 5).store "s1").map
      (fun s => s.userId) = some (some "u1") ∧
    (storeFind (logoutPOST [("s1", boundSession)] (some "s1") 5).store "s1").map
      (fun s => s.username) = some (some "alice") := by
  refine ⟨rfl, rfl, rfl, rfl⟩

/-- Folding `addToHistory` only folds `histStep` over the history. -/
theorem addToHistory_foldl (cs : List String) :
    ∀ (s : BbsSession) (now : Int),
      (cs.foldl (fun s c => addToHistory s c now) s).commandHistory =
        cs.foldl histStep s.commandHistory := by
  induction cs with
  | nil => intro s now; rfl
  | cons c cs ih =>
    intro s now
    simpa [List.foldl_cons, addToHistory] using ih (addToHistory s c now) now

/-- The invariant of the bounded history push: starting from any history
within the cap, the fold keeps exactly the newest 100 entries. -/
theorem histStep_foldl (cs : List String) :
    ∀ h : List String, h.length ≤ 100 →
      cs.foldl histStep h = (h ++ cs).drop (h.length + cs.length - 100) := by
  induction cs with
  | nil =>
    intro h hle
    simp [Nat.sub_eq_zero_of_le hle]
  | cons c cs ih =>
    intro h hle
    rw [List.foldl_cons]
    by_cases hlt : h.length < 100
    · have hc : ¬ (100 < (h ++ [c]).length) := by simp; omega
      have hstep : histStep h c = h ++ [c] := by
        simp only [histStep]
        rw [if_neg hc]
      rw [hstep, ih (h ++ [c]) (by simp; omega)]
      have he : (h ++ [c]) ++ cs = h ++ c :: cs := by simp
      rw [he]
      congr 1
      simp only [List.length_append, List.length_cons, List.length_nil]
      omega
    · have h100 : h.length = 100 := le_antisymm hle (not_lt.mp hlt)
      obtain ⟨x, t, rfl⟩ : ∃ x t, h = x :: t := by
        cases h with
        | nil => simp at h100
        | cons x t => exact ⟨x, t, rfl⟩
      have ht99 : t.length = 99 := by simpa using h100
      have hc : 100 < ((x :: t) ++ [c]).length := by simp; omega
      have hstep : histStep (x :: t) c = t ++ [c] := by
        simp only [histStep]
        rw [if_pos hc]
        rfl
      rw [hstep, ih (t ++ [c]) (by simp; omega)]
      have e1 : (t ++ [c]) ++ cs = t ++ c :: cs := by simp
      have e2 : (x :: t) ++ c :: cs = x :: (t ++ c :: cs) := by simp
      have hidx1 : (t ++ [c]).length + cs.length - 100 = cs.length := by
        simp [ht99]
      have hidx2 : (x :: t).length + (c :: cs).length - 100 = cs.length + 1 := by
        simp only [List.length_cons, ht99]
        omega
      rw [e1, e2, hidx1, hidx2, List.drop_succ_cons]

/-- Claim C2: for every session and every command sequence applied in
order, the persisted history is the newest-100 tail, oldest first; in
particular 105 commands leave 100 entries, the first being the sixth
command and the last the 105th. -/
theorem commandHistory_cap :
    (∀ (sid : String) (now : Int) (cs : List String),
      (cs.foldl (fun s c => addToHistory s c now) (basicSession sid)).commandHistory =
          cs.drop (cs.length - 100) ∧
      (cs.foldl (fun s c => addToHistory s c now) (basicSession sid)).commandHistory.length =
          min cs.length 100) ∧
    (((List.range 105).map (fun n => toString n)).foldl
        (fun s c => addToHistory s c 0) (basicSession "k")).commandHistory.length = 100 ∧
    (((List.range 105).map (fun n => toString n)).foldl
        (fun s c => addToHistory s c 0) (basicSession "k")).commandHistory.head? =
        some (toString 5) ∧
    (((List.range 105).map (fun n => toString n)).foldl
        (fun s c => addToHistory s c 0) (basicSession "k")).commandHistory.getLast? =
        some (toString 104) := by
  have base : ∀ (sid : String) (now : Int) (cs : List String),
      (cs.foldl (fun s c => addToHistory s c now) (basicSession sid)).commandHistory =
        cs.drop (cs.length - 100) := by
    intro sid now cs
    rw [addToHistory_foldl]
    have h0 : (basicSession sid).commandHistory = [] := rfl
    rw [h0, histStep_foldl cs [] (by simp)]
    simp
  refine ⟨fun sid now cs => ⟨base sid now cs, ?_⟩, ?_, ?_, ?_⟩
  · rw [base sid now cs]
    simp only [List.length_drop]
    omega
  · rw [base "k" 0]
    decide
  · rw [base "k" 0]
    decide
  · rw [base "k" 0]
    decide

/-- The static analysis verdict on the eval main file: rejected by the
AST walk with the dangerous-method reason (the regex and structural
checks all pass on this input). -/
theorem analyzeEval :
    analyzeCodeForMaliciousPatterns evalCode (some evalAst) =
      { safe := false, reason := "Use of dangerous method: eval" } := by
  decide

/-- The URL of scenario 5 parses to owner evil, repo app. -/
theorem parseEvalUrl :
    parseGithubUrl evalUrl =
      some { owner := "evil", repo := "app", branch := "main", path := "" } := by
  decide

/-- Claim C3: installing a remote app whose main file is eval('1+1')
fails — the static analysis rejects it with a reason mentioning
"dangerous method: eval", the sandbox never runs the code, the load
returns null with the cache unchanged, the install leaves the loader
state (registry and installed URLs) untouched, and the URL listing
omits the URL. -/
theorem install_eval_rejected (st : AppLoaderState) (now : Int)
    (pkg : Option PkgData) (runResult : Option BbsApp)
    (hurl : st.installedUrls.contains evalUrl = false)
    (hcache : cacheFind st.cache "github_evil_app" = none) :
    analyzeCodeForMaliciousPatterns evalCode (some evalAst) =
      { safe := false, reason := "Use of dangerous method: eval" } ∧
    containsL "Use of dangerous method: eval".data "dangerous method: eval".data = true ∧
    loadAppFromGithub evalUrl st.cache now pkg (some evalCode) (some evalAst) runResult =
      { app := none, cache := st.cache,
        sandbox := some
          { analysis := { safe := false, reason := "Use of dangerous method: eval" },
            sandboxRan := false, app := none } } ∧
    installGithubApp st evalUrl now pkg (some evalCode) (some evalAst) runResult =
      (none, st) ∧
    getInstalledGithubAppUrls
      (installGithubApp st evalUrl now pkg (some evalCode) (some evalAst) runResult).snd =
      st.installedUrls := by
  have hsand : executeSandboxedApp evalCode (some evalAst) runResult =
      { analysis := { safe := false, reason := "Use of dangerous method: eval" },
        sandboxRan := false, app := none } := by
    unfold executeSandboxedApp
    rw [analyzeEval]
    simp
  have hload : loadAppFromGithub evalUrl st.cache now pkg (some evalCode)
      (some evalAst) runResult =
      { app := none, cache := st.cache,
        sandbox := some
          { analysis := { safe := false, reason := "Use of dangerous method: eval" },
            sandboxRan := false, app := none } } := by
    unfold loadAppFromGithub
    rw [parseEvalUrl]
    have hid :
        githubAppId { owner := "evil", repo := "app", branch := "main", path := "" } =
          "github_evil_app" := by decide
    simp only [hid, hcache, hsand]
  have hinstall : installGithubApp st evalUrl now pkg (some evalCode) (some evalAst)
      runResult = (none, st) := by
    unfold installGithubApp
    rw [hurl]
    simp only [Bool.false_eq_true, if_false, hload]
  refine ⟨analyzeEval, by decide, hload, hinstall, ?_⟩
  rw [hinstall]
  rfl

/-- Witness for C3 at the empty loader state. -/
theorem install_eval_rejected_witness :
    (({} : AppLoaderState).installedUrls.contains evalUrl = false) ∧
    (cacheFind ({} : AppLoaderState).cache "github_evil_app" = none) ∧
    installGithubApp {} evalUrl 0 none (some evalCode) (some evalAst) none =
      (none, {}) := by
  have h := install_eval_rejected {} 0 none none (by decide) rfl
  exact ⟨by decide, rfl, h.2.2.2.1⟩

/-- Sessions present in the store survive `createSession` unchanged
(whatever the failure flags). -/
theorem createSession_preserves (store : SessionStore) (existing : Option String)
    (gen : String) (now : Int) (ff sf : Bool) (k : String) (s : BbsSession)
    (h : storeFind store k = some s) :
    storeFind (createSession store existing gen now ff sf).snd k = some s := by
  unfold createSession
  by_cases hff : ff = true
  · simpa [hff] using h
  · simp only [hff, if_false]
    cases hfind : storeFind store (existing.getD gen) with
    | some t => simpa using h
    | none =>
      by_cases hsf : sf = true
      · simpa [hsf] using h
      · simp only [hsf, if_false]
        exact storeFind_insert_of_found _ _ _ _ _ h

/-- Sessions present in the store keep their `currentArea` across
`getSession` (only `lastActivity` is rewritten). -/
theorem getSession_preserves_area (store : SessionStore) (sid : String) (now : Int)
    (k : String) (s : BbsSession) (h : storeFind store k = some s) :
    ∃ s', storeFind (getSession store sid now).snd k = some s' ∧
      s'.currentArea = s.currentArea := by
  unfold getSession
  cases hfind : storeFind store sid with
  | none => exact ⟨s, by simpa using h, rfl⟩
  | some t =>
    by_cases hk : k = sid
    · subst hk
      have hts : t = s := by
        rw [hfind] at h
        exact Option.some.inj h
      subst hts
      refine ⟨{ t with lastActivity := now }, ?_, rfl⟩
      simp [storeFind_replace_self, hfind]
    · refine ⟨s, ?_, rfl⟩
      simpa [storeFind_replace_other _ _ _ _ hk] using h

/-- Claim C10: GET /terminal/init reports `currentArea` as the constant
main for every input, and the call does not modify the stored
`currentArea` of any existing session. -/
theorem init_reports_main_constant (store : SessionStore) (sid : Option String)
    (simplified : Bool) (gen : String) (now : Int) (ff sf : Bool) :
    (initGET store sid simplified gen now ff sf).fst.currentArea = "main" ∧
    (∀ k s, storeFind store k = some s →
      ∃ s', storeFind (initGET store sid simplified gen now ff sf).snd k = some s' ∧
        s'.currentArea = s.currentArea) := by
  constructor
  · cases sid with
    | none => rfl
    | some x => rfl
  · intro k s hks
    unfold initGET
    cases sid with
    | none =>
      exact ⟨s, createSession_preserves store none gen now ff sf k s hks, rfl⟩
    | some x =>
      simp only []
      cases hg : storeFind store x with
      | some t =>
        have := getSession_preserves_area store x now k s hks
        unfold getSession at this
        rw [hg] at this
        simpa [getSession, hg] using this
      | none =>
        have hgs : getSession store x now = (none, store) := by
          unfold getSession
          rw [hg]
        rw [hgs]
        exact ⟨s, createSession_preserves store (some x) gen now ff sf k s hks, rfl⟩

/-- Witness for C10: resuming a session parked in an app area still
reports main, and the stored area is untouched. -/
theorem init_reports_main_constant_witness :
    (initGET [("k1", areaSession)] (some "k1") false "g" 7 false false).fst.currentArea =
      "main" ∧
    ∃ s', storeFind
        (initGET [("k1", areaSession)] (some "k1") false "g" 7 false false).snd "k1" =
        some s' ∧ s'.currentArea = "hangman:play" := by
  have h := init_reports_main_constant [("k1", areaSession)] (some "k1") false "g" 7
    false false
  exact ⟨h.1, h.2 "k1" areaSession rfl⟩

/-- Claim C9 amended: a persistence failure while saving a freshly
created session is swallowed inside `createSession`, which returns the
unsaved basic session; the init endpoint then answers 200 with that
session id even though nothing was persisted. -/
theorem createSession_swallows_store_failure (store : SessionStore) (sid gen : String)
    (now : Int) (simplified : Bool) (h : storeFind store sid = none) :
    createSession store (some sid) gen now false true = (basicSession sid, store) ∧
    (initGET store (some sid) simplified gen now false true).fst.status = 200 ∧
    (initGET store (some sid) simplified gen now false true).fst.sessionId = sid ∧
    (initGET store (some sid) simplified gen now false true).snd = store ∧
    storeFind (initGET store (some sid) simplified gen now false true).snd sid = none := by
  have hcreate : createSession store (some sid) gen now false true =
      (basicSession sid, store) := by
    unfold createSession
    simp [h]
  have hinit : initGET store (some sid) simplified gen now false true =
      ({ sessionId := sid, currentArea := "main",
         defaultWelcomeText :=
           if simplified then generateSimplifiedWelcomeScreen else generateWelcomeScreen,
         fullWelcomeText := generateWelcomeScreen,
         simpleWelcomeText := generateSimplifiedWelcomeScreen,
         menuOptions := initMenuOptions }, store) := by
    unfold initGET getSession
    simp only [h, hcreate, basicSession]
  refine ⟨hcreate, ?_, ?_, ?_, ?_⟩ <;> rw [hinit]
  exact h

/-- Witness for C9 amended at the empty store. -/
theorem createSession_swallows_store_failure_witness :
    storeFind [] "s1" = none ∧
    createSession [] (some "s1") "g" 0 false true = (basicSession "s1", []) ∧
    (initGET [] (some "s1") false "g" 0 false true).fst.status = 200 ∧
    (initGET [] (some "s1") false "g" 0 false true).snd = [] := by
  have h := createSession_swallows_store_failure [] "s1" "g" 0 false rfl
  exact ⟨rfl, h.1, h.2.1, h.2.2.2.1⟩

/-- Counterexample to C9 as stated: with an injected save failure the
endpoint still answers 200 success with the requested session id, and
the session was never persisted — the error does not bubble up to an
HTTP error status. -/
theorem init_success_despite_save_failure :
    (initGET [] (some "s1") false "g" 0 false true).fst.status = 200 ∧
    (initGET [] (some "s1") false "g" 0 false true).fst.sessionId = "s1" ∧
    (initGET [] (some "s1") false "g" 0 false true).snd = [] ∧
    storeFind (initGET [] (some "s1") false "g" 0 false true).snd "s1" = none := by
  refine ⟨rfl, rfl, rfl, rfl⟩

/-- Claim C6 amended: POST /auth/register requires the email field —
whatever the other fields, a request without email is rejected by the
required-fields check with status 400 and nothing is created. -/
theorem register_requires_email (users : List UserRec) (store : SessionStore)
    (u p d sid : Option String) (hash : String → String) (newId gen : String)
    (now : Int) :
    registerPOST users store
      { username := u, password := p, displayName := d, email := none,
        sessionId := sid } hash newId gen now =
      registerReject users store
        "Username, password, display name, and email are required" := by
  unfold registerPOST
  simp [isFalsyStr]

/-- Counterexample to C6 as stated: a request with a valid username,
password and display name but no email field is rejected, not
accepted. -/
theorem register_missing_email_rejected :
    (registerPOST [] [] noEmailBody (fun s => s) "id1" "g1" 0).success = false ∧
    (registerPOST [] [] noEmailBody (fun s => s) "id1" "g1" 0).status = 400 ∧
    (registerPOST [] [] noEmailBody (fun s => s) "id1" "g1" 0).error =
      some "Username, password, display name, and email are required" := by
  refine ⟨rfl, rfl, rfl⟩

/-- Claim C7 amended: a successful registration persists the submitted
username verbatim (the route neither lowercases nor routes through
`createUser`), while the `createUser` helper in userUtils — cited by the
spec — does lowercase. -/
theorem register_username_verbatim (users : List UserRec) (store : SessionStore)
    (u p d em : String) (hash : String → String) (newId gen : String) (now : Int)
    (hu : validUsername u = true) (hp : 6 ≤ p.length) (hd : d ≠ "") (hem : em ≠ "")
    (hdupU : users.find? (fun x => x.username = u) = none)
    (hdupE : users.find? (fun x => x.email = some em) = none)
    (hgen : storeFind store gen = none) :
    ((registerPOST users store
        { username := some u, password := some p, displayName := some d,
          email := some em, sessionId := none } hash newId gen now).savedUser).map
      (fun x => x.username) = some u ∧
    (registerPOST users store
        { username := some u, password := some p, displayName := some d,
          email := some em, sessionId := none } hash newId gen now).success = true ∧
    (createUserUtil { username := u, displayName := d, password := p, email := some em }
        hash newId now).username = lowerAscii u := by
  have hune : u ≠ "" := by
    intro e
    subst e
    simp [validUsername] at hu
  have hpne : p ≠ "" := by
    intro e
    subst e
    simp at hp
  have hucheck : isFalsyStr (some u) = false := by simp [isFalsyStr, hune]
  have hpcheck : isFalsyStr (some p) = false := by simp [isFalsyStr, hpne]
  have hdcheck : isFalsyStr (some d) = false := by simp [isFalsyStr, hd]
  have hemcheck : isFalsyStr (some em) = false := by simp [isFalsyStr, hem]
  have hcreate : createSession store none gen now false false =
      (basicSession gen, storeInsert store gen
        { sessionId := gen, userId := none, username := none, currentArea := "main",
          commandHistory := [], data := [], lastActivity := now }) := by
    unfold createSession
    simp [hgen, basicSession]
  have hfound : storeFind (storeInsert store gen
        { sessionId := gen, userId := none, username := none, currentArea := "main",
          commandHistory := [], data := [], lastActivity := now }) gen =
      some { sessionId := gen, userId := none, username := none, currentArea := "main",
             commandHistory := [], data := [], lastActivity := now } := by
    unfold storeFind storeInsert
    rw [List.find?_append]
    have hnone : store.find? (fun q => q.fst = gen) = none := by
      unfold storeFind at hgen
      cases hq : store.find? (fun q => q.fst = gen) with
      | none => rfl
      | some q => rw [hq] at hgen; simp at hgen
    rw [hnone]
    simp
  unfold registerPOST
  simp only [hucheck, hpcheck, hdcheck, hemcheck, Bool.or_self, Bool.or_false,
    Bool.false_or, if_false, Option.getD_some, hu, Bool.not_true, hdupU, hdupE,
    Option.isSome_none, Bool.false_eq_true, hcreate]
  rw [if_neg (by omega : ¬ p.length < 6)]
  unfold updateSession
  simp only [basicSession]
  rw [hfound]
  refine ⟨rfl, rfl, rfl⟩

/-- Witness for C7 amended: the mixed-case username Alice_99 is stored
as Alice_99 by the route, while `createUser` would store alice_99. -/
theorem register_username_verbatim_witness :
    ((registerPOST [] [] mixedCaseBody
        (fun _ => "H") "u1" "g1" 0).savedUser).map (fun x => x.username) =
      some "Alice_99" ∧
    (createUserUtil
        { username := "Alice_99", displayName := "Al", password := "secret1",
          email := some "a@b.c" } (fun _ => "H") "u1" 0).username =
      lowerAscii "Alice_99" := by
  have h := register_username_verbatim [] [] "Alice_99" "secret1" "Al" "a@b.c"
    (fun _ => "H") "u1" "g1" 0 (by decide) (by decide) (by decide) (by decide)
    rfl rfl rfl
  exact ⟨h.1, h.2.2⟩

/-- Counterexample to C7 as stated: the persisted username keeps its
capital letters; it is not the lowercase of the submitted name. -/
theorem register_mixed_case_stored :
    ((registerPOST [] [] mixedCaseBody
        (fun _ => "H") "u1" "g1" 0).savedUser).map (fun x => x.username) =
      some "Alice_99" ∧
    lowerAscii "Alice_99" = "alice_99" ∧
    ("Alice_99" : String) ≠ "alice_99" := by
  refine ⟨rfl, rfl, by decide⟩

/-- An accepted facade set below the per-minute cap: the stamp log
grows by one. -/
theorem storageSet_step_accept (k : Nat) (hk : k < 50) :
    storageSetData (rlStateOf k) 0 "v" = (true, rlStateOf (k + 1)) := by
  have hcheck : storageCheckRateLimit (rlStateOf k) "setData" 0 =
      (true, rlStateOf (k + 1)) := by
    unfold storageCheckRateLimit rlStateOf rlGet rlSet rateLimitFor
    simp [List.filter_replicate_of_pos, if_neg (by omega : ¬ 50 ≤ k),
      ← List.replicate_succ']
  unfold storageSetData
  rw [hcheck]
  simp [validateDataStr]
  refine ⟨⟨⟨?_, ?_⟩, ?_⟩, ?_⟩ <;> decide

/-- A facade set at the per-minute cap is refused and the state is
unchanged. -/
theorem storageSet_step_refuse :
    storageSetData (rlStateOf 50) 0 "v" = (false, rlStateOf 50) := by
  decide

/-- Running facade sets from a state with `k` accepted stamps: the next
`50 - k` calls are accepted and everything after is refused. -/
theorem runSetSeq_from (n : Nat) : ∀ k : Nat, k ≤ 50 →
    (runSetSeq (rlStateOf k) (List.replicate n 0)).fst =
      List.replicate (min n (50 - k)) true ++ List.replicate (n - (50 - k)) false := by
  induction n with
  | zero => intro k _; simp [runSetSeq]
  | succ m ih =>
    intro k hk
    rw [List.replicate_succ]
    by_cases hlt : k < 50
    · have hrec := ih (k + 1) (by omega)
      have h49 : 50 - (k + 1) = 49 - k := by omega
      rw [h49] at hrec
      simp only [runSetSeq, storageSet_step_accept k hlt, hrec]
      have h1 : min (m + 1) (50 - k) = min m (49 - k) + 1 := by omega
      have h2 : (m + 1) - (50 - k) = m - (49 - k) := by omega
      rw [h1, h2, List.replicate_succ, List.cons_append]
    · have hk50 : k = 50 := by omega
      subst hk50
      have hrec := ih 50 le_rfl
      simp only [runSetSeq, storageSet_step_refuse, hrec]
      simp [← List.replicate_succ]

/-- Claim C5 amended: through the storage facade, a `set` call is
refused exactly when 50 accepted sets already happened within the
preceding 60 seconds — in a same-instant burst of `n` calls the first 50
succeed and the rest fail. The per-5-second burst cap of the table is
not applied to storage operations (only the separate generic
`checkRateLimit` carries burst logic). -/
theorem storage_set_rate_limit (n : Nat) :
    (runSetSeq {} (List.replicate n 0)).fst =
      List.replicate (min n 50) true ++ List.replicate (n - 50) false := by
  cases n with
  | zero => simp [runSetSeq]
  | succ m =>
    rw [List.replicate_succ]
    have hfirst : storageSetData {} 0 "v" = (true, rlStateOf 1) := by decide
    have hrec := runSetSeq_from m 1 (by omega)
    have h49 : 50 - 1 = 49 := by omega
    rw [h49] at hrec
    simp only [runSetSeq, hfirst, hrec]
    have h1 : min (m + 1) 50 = min m 49 + 1 := by omega
    have h2 : (m + 1) - 50 = m - 49 := by omega
    rw [h1, h2, List.replicate_succ, List.cons_append]

/-- Counterexample to C5 as stated: with 10 accepted sets all inside the
preceding 5 seconds, the 11th set is still accepted — the claimed
per-5-second burst cap does not fire for storage sets. -/
theorem storage_set_no_burst_cap :
    (rlGet (rlStateOf 10) "setData").length = 10 ∧
    (rlGet (rlStateOf 10) "setData").all (fun t => decide ((0 : Int) - t < 5000)) = true ∧
    (storageSetData (rlStateOf 10) 0 "v").fst = true := by
  refine ⟨by decide, by decide, by decide⟩

/-- Claim C8 amended: `parseGithubUrl` fails fast on strings that do
not even *contain* "github.com" and on URL-parse failures; every
accepted URL yields owner and repo from the first two path segments,
with branch defaulting to main and subpath to empty when no
`tree/<branch>` segment follows. (The "github.com" test is a substring
test, not a host check — see the counterexample.) -/
theorem parseGithubUrl_spec :
    (∀ url, containsSub (stripTrailingSlashes url) "github.com" = false →
      parseGithubUrl url = none) ∧
    (∀ url, parseUrl (stripTrailingSlashes url) = none → parseGithubUrl url = none) ∧
    (∀ url info, parseGithubUrl url = some info →
      ∃ u, parseUrl (stripTrailingSlashes url) = some u ∧
        2 ≤ ((splitOnChar u.pathname '/').filter (fun p => p ≠ "")).length ∧
        info.owner = ((splitOnChar u.pathname '/').filter (fun p => p ≠ "")).headD "" ∧
        info.repo =
          (((splitOnChar u.pathname '/').filter (fun p => p ≠ "")).drop 1).headD "" ∧
        (¬(3 < ((splitOnChar u.pathname '/').filter (fun p => p ≠ "")).length ∧
            (((splitOnChar u.pathname '/').filter (fun p => p ≠ "")).drop 2).headD "" =
              "tree") →
          info.branch = "main" ∧ info.path = "")) := by
  refine ⟨?_, ?_, ?_⟩
  · intro url h
    unfold parseGithubUrl
    simp [h]
  · intro url h
    unfold parseGithubUrl
    by_cases hc : containsSub (stripTrailingSlashes url) "github.com"
    · simp [hc, h]
    · simp [hc]
  · intro url info h
    unfold parseGithubUrl at h
    by_cases hc : containsSub (stripTrailingSlashes url) "github.com"
    · simp only [hc, Bool.not_true, Bool.false_eq_true, if_false] at h
      cases hp : parseUrl (stripTrailingSlashes url) with
      | none => rw [hp] at h; simp at h
      | some u =>
        rw [hp] at h
        refine ⟨u, rfl, ?_⟩
        simp only [] at h
        by_cases h2 : ((splitOnChar u.pathname '/').filter (fun p => p ≠ "")).length < 2
        · rw [if_pos h2] at h
          simp at h
        · rw [if_neg h2] at h
          refine ⟨by omega, ?_⟩
          by_cases ht : 3 < ((splitOnChar u.pathname '/').filter (fun p => p ≠ "")).length ∧
              (((splitOnChar u.pathname '/').filter (fun p => p ≠ "")).drop 2).headD "" =
                "tree"
          · rw [if_pos ht] at h
            obtain rfl := Option.some.inj h
            exact ⟨rfl, rfl, fun hnt => absurd ht hnt⟩
          · rw [if_neg ht] at h
            obtain rfl := Option.some.inj h
            exact ⟨rfl, rfl, fun _ => ⟨rfl, rfl⟩⟩
    · simp [hc] at h

/-- Witness for C8 amended: a non-GitHub URL is refused, a malformed
string is refused, and a plain GitHub URL yields the default branch and
empty subpath. -/
theorem parseGithubUrl_spec_witness :
    parseGithubUrl "https://gitlab.com/a/b" = none ∧
    parseGithubUrl "github.com" = none ∧
    (∃ u, parseUrl (stripTrailingSlashes evalUrl) = some u ∧
      2 ≤ ((splitOnChar u.pathname '/').filter (fun p => p ≠ "")).length ∧
      ({ owner := "evil", repo := "app", branch := "main", path := "" } :
          GithubRepoInfo).owner =
        ((splitOnChar u.pathname '/').filter (fun p => p ≠ "")).headD "" ∧
      ({ owner := "evil", repo := "app", branch := "main", path := "" } :
          GithubRepoInfo).repo =
        (((splitOnChar u.pathname '/').filter (fun p => p ≠ "")).drop 1).headD "" ∧
      (¬(3 < ((splitOnChar u.pathname '/').filter (fun p => p ≠ "")).length ∧
          (((splitOnChar u.pathname '/').filter (fun p => p ≠ "")).drop 2).headD "" =
            "tree") →
        ({ owner := "evil", repo := "app", branch := "main", path := "" } :
            GithubRepoInfo).branch = "main" ∧
        ({ owner := "evil", repo := "app", branch := "main", path := "" } :
            GithubRepoInfo).path = "")) := by
  refine ⟨?_, ?_, ?_⟩
  · exact parseGithubUrl_spec.1 "https://gitlab.com/a/b" (by decide)
  · exact parseGithubUrl_spec.2.1 "github.com" (by decide)
  · exact parseGithubUrl_spec.2.2 evalUrl
      { owner := "evil", repo := "app", branch := "main", path := "" } parseEvalUrl

/-- Counterexample to C8 as stated: a URL whose host is
github.com.evil.com — a different service — parses successfully, because
the source only tests that the string contains "github.com". -/
theorem parseGithubUrl_host_spoof :
    parseGithubUrl "https://github.com.evil.com/a/b" =
      some { owner := "a", repo := "b", branch := "main", path := "" } ∧
    (parseUrl "https://github.com.evil.com/a/b").map (fun u => u.host) =
      some "github.com.evil.com" ∧
    ("github.com.evil.com" : String) ≠ "github.com" := by
  refine ⟨by decide, by decide, by decide⟩

/-- Claim C4 amended: for a command in an app area that is no universal
verb, no admin verb and not B/BACK, the Shell calls the app's
`handleCommand` with the trimmed upper-cased `cmd` — not the raw
command string — and interprets the result. -/
theorem appCommand_forwards_normalized (currentArea command : String)
    (session : BbsSession) (apps : AppRegistry) (installResult : Option BbsApp)
    (uninstallResult : Bool) (urls : List String) (appId screenId : String)
    (app : BbsApp)
    (harea : parseAreaString currentArea = (some appId, some screenId))
    (hid : appId ≠ "")
    (happ : regFind apps appId = some app)
    (h1 : upperJs (trimJs command) ≠ "HELP")
    (h2 : upperJs (trimJs command) ≠ "MAIN")
    (h3 : upperJs (trimJs command) ≠ "MENU")
    (h4 : upperJs (trimJs command) ≠ "EXIT")
    (h5 : upperJs (trimJs command) ≠ "QUIT")
    (h6 : upperJs (trimJs command) ≠ "X")
    (h7 : upperJs (trimJs command) ≠ "LOGOFF")
    (h8 : upperJs (trimJs command) ≠ "DEBUG")
    (h9 : strStartsWith (upperJs (trimJs command)) "INSTALL GITHUB " = false)
    (h10 : strStartsWith (upperJs (trimJs command)) "INSTALL-GITHUB " = false)
    (h11 : strStartsWith (upperJs (trimJs command)) "UNINSTALL GITHUB " = false)
    (h12 : strStartsWith (upperJs (trimJs command)) "UNINSTALL-GITHUB " = false)
    (h13 : upperJs (trimJs command) ≠ "LIST GITHUB APPS")
    (h14 : upperJs (trimJs command) ≠ "LIST-GITHUB-APPS")
    (h15 : upperJs (trimJs command) ≠ "B")
    (h16 : upperJs (trimJs command) ≠ "BACK") :
    processCommand currentArea command session apps installResult uninstallResult urls =
      interpretAppResult appId (some screenId)
        (app.handleCommand (some screenId) (upperJs (trimJs command)) session) apps := by
  unfold processCommand handleAppCommand
  simp [harea, hid, happ, h1, h2, h3, h4, h5, h6, h7, h8, h9, h10, h11, h12, h13,
    h14, h15, h16]

/-- Witness for C4 amended: in area app1:home the command " hello " is
delivered to the echo app as HELLO. -/
theorem appCommand_forwards_normalized_witness :
    processCommand "app1:home" " hello " (basicSession "s") [("app1", echoApp)]
        none false [] =
      interpretAppResult "app1" (some "home")
        (echoApp.handleCommand (some "home") "HELLO" (basicSession "s"))
        [("app1", echoApp)] := by
  exact appCommand_forwards_normalized "app1:home" " hello " (basicSession "s")
    [("app1", echoApp)] none false [] "app1" "home" echoApp (by decide) (by decide)
    rfl (by decide) (by decide) (by decide) (by decide) (by decide) (by decide)
    (by decide) (by decide) (by decide) (by decide) (by decide) (by decide)
    (by decide) (by decide) (by decide) (by decide)

/-- Counterexample to C4 as stated: the echo app answers with exactly
the command string it received; submitting " hello " in its area yields
the response HELLO, so the raw string (case and padding) was not
forwarded — had it been, the response would be " hello ". -/
theorem appCommand_not_raw :
    (processCommand "app1:home" " hello " (basicSession "s") [("app1", echoApp)]
        none false []).response = "HELLO" ∧
    (echoApp.handleCommand (some "home") " hello " (basicSession "s")).response =
      " hello " ∧
    ("HELLO" : String) ≠ " hello " := by
  refine ⟨rfl, rfl, by decide⟩

end TtBbs
